import Mathlib

/-!
Verification of the LivePlayerStats data-fetching and display pipeline
(`data_fetcher.py`, `manager.py`) against its natural-language specification.

The Python code is shallowly embedded: dictionaries read with `.get` and a
default are modelled as structures with `Option` fields, Python exceptions as
`Option`/`Except` results, JSON scalar values as the `PyVal` type, and the
network as explicit oracle parameters.  Logging calls have no observable
effect and are omitted.  String operations are modelled on the character
list of the string (Python strings are sequences of code points), so that
all definitions evaluate by kernel reduction.
-/

namespace LedStats

/-! ### String operation models (Python semantics, character-list based) -/

/-- Model of Python `s[:n]` (take the first `n` characters). -/
def strTake (s : String) (n : Nat) : String := String.mk (s.data.take n)

/-- Model of Python `s[n:]` (drop the first `n` characters). -/
def strDrop (s : String) (n : Nat) : String := String.mk (s.data.drop n)

/-- First character of a (non-empty) string, modelling Python `s[0]`. -/
def strHead (s : String) : Char := s.data.headD ' '

/-- Model of Python `s.startswith(p)`. -/
def strStartsWith (s p : String) : Bool := p.data.isPrefixOf s.data

/-- Model of Python `s.strip()`: remove leading and trailing whitespace. -/
def strStrip (s : String) : String :=
  String.mk (((s.data.dropWhile Char.isWhitespace).reverse.dropWhile
    Char.isWhitespace).reverse)

/-- Model of Python `s.upper()` on ASCII data. -/
def strUpper (s : String) : String := String.mk (s.data.map Char.toUpper)

/-- Model of Python `s.lower()` on ASCII data. -/
def strLower (s : String) : String := String.mk (s.data.map Char.toLower)

/-- Model of the Python substring test `pat in s`. -/
def strContains (s pat : String) : Bool :=
  (List.range (s.data.length + 1)).any (fun i => pat.data.isPrefixOf (s.data.drop i))

/-- Scalar value appearing in an upstream JSON payload: an integer, a string,
or JSON `null` (Python `None`). -/
inductive PyVal where
  | vInt : Int → PyVal
  | vStr : String → PyVal
  | vNone : PyVal
deriving DecidableEq, Repr, Inhabited

/-- Digits of a string interpreted as a natural number (helper for
`parseIntStr`). -/
def digitsToNat (s : String) : Nat :=
  s.data.foldl (fun n c => 10 * n + (c.toNat - '0'.toNat)) 0

/-- Model of Python `int(s)` on a string: strip surrounding whitespace, accept
an optional sign followed by a non-empty run of decimal digits, otherwise fail
(`ValueError`). -/
def parseIntStr (s : String) : Option Int :=
  let t := strStrip s
  let core := if strStartsWith t "-" ∨ strStartsWith t "+" then strDrop t 1 else t
  if core ≠ "" ∧ core.data.all Char.isDigit then
    some (if strStartsWith t "-" then -(digitsToNat core : Int) else (digitsToNat core : Int))
  else
    none

/-- Model of Python `int(x)` on a JSON scalar; `none` models a raised
`ValueError`/`TypeError`. -/
def pyToInt : PyVal → Option Int
  | .vInt n => some n
  | .vStr s => parseIntStr s
  | .vNone => none

/-- Model of Python truthiness for a JSON scalar. -/
def pyTruthy : PyVal → Bool
  | .vInt n => n ≠ 0
  | .vStr s => s ≠ ""
  | .vNone => false

/-- Model of Python `str(x)` / f-string interpolation of a JSON scalar. -/
def pyToStr : PyVal → String
  | .vInt n => toString n
  | .vStr s => s
  | .vNone => "None"

/-- Helper for `splitNameParts`: walk the characters, accumulating the current
word (in reverse). -/
def splitPartsAux : List Char → List Char → List String
  | [], acc => if acc = [] then [] else [String.mk acc.reverse]
  | c :: cs, acc =>
    if c.isWhitespace then
      if acc = [] then splitPartsAux cs []
      else String.mk acc.reverse :: splitPartsAux cs []
    else splitPartsAux cs (c :: acc)

/-- Model of Python `full_name.split()`: split on runs of whitespace, dropping
empty pieces. -/
def splitNameParts (fullName : String) : List String := splitPartsAux fullName.data []

/-- Embedding of `DataFetcher._abbreviate_name` (src/data_fetcher.py:596-616). -/
def abbreviateName (fullName : String) : String :=
  let parts := splitNameParts fullName
  if parts.length ≥ 2 then
    if (parts.getLastD "").length ≤ 8 then parts.getLastD ""
    else String.singleton (strHead (parts.headD "")) ++ ". " ++ parts.getLastD ""
  else
    if fullName.length > 10 then strTake fullName 10 else fullName

/-! ### ESPN boxscore data model (basketball leader extraction) -/

/-- Athlete identity block (`athlete.get('athlete', {})`). -/
structure BAthleteInfo where
  displayName : Option String
  shortName : Option String
deriving DecidableEq, Repr, Inhabited

/-- One athlete row of an ESPN boxscore or scoreboard stats section. -/
structure BAthlete where
  athlete : Option BAthleteInfo
  stats : List PyVal
deriving DecidableEq, Repr, Inhabited

/-- Display name of an athlete: `displayName`, falling back to `shortName`,
falling back to `"Unknown"` (src/data_fetcher.py:361). -/
def athleteName (a : BAthlete) : String :=
  let info := a.athlete.getD ⟨none, none⟩
  info.displayName.getD (info.shortName.getD "Unknown")

/-- One entry of `boxscore.players[i].statistics` (labels, names, athletes). -/
structure StatsGroup where
  labels : List String
  names : List String
  athletes : List BAthlete
deriving DecidableEq, Repr, Inhabited

/-- One entry of `boxscore.players`: a team with its statistics groups. -/
structure TeamPlayers where
  abbreviation : Option String
  statistics : List StatsGroup
deriving DecidableEq, Repr, Inhabited

/-- ESPN boxscore response, flattened to the only path the code reads:
`boxscore.get('boxscore', {}).get('players', [])`. -/
structure EspnBoxscore where
  players : List TeamPlayers
deriving DecidableEq, Repr, Inhabited

/-- Stat column indices for PTS/REB/AST/STL/BLK, each possibly undiscovered. -/
structure StatIdx where
  pts : Option Nat
  reb : Option Nat
  ast : Option Nat
  stl : Option Nat
  blk : Option Nat
deriving DecidableEq, Repr, Inhabited

/-- First index-finding pass over `stats_group['labels']`
(src/data_fetcher.py:316-327): exact uppercase match, later labels
overwrite earlier ones. -/
def findIdxFromLabels (labels : List String) : StatIdx :=
  labels.enum.foldl (fun acc p =>
    let u := strUpper p.2
    if u = "PTS" then { acc with pts := some p.1 }
    else if u = "REB" then { acc with reb := some p.1 }
    else if u = "AST" then { acc with ast := some p.1 }
    else if u = "STL" then { acc with stl := some p.1 }
    else if u = "BLK" then { acc with blk := some p.1 }
    else acc) ⟨none, none, none, none, none⟩

/-- Second index-finding pass over `stats_group['names']`
(src/data_fetcher.py:332-345): substring match, only filling indices that
are still undiscovered. -/
def refineIdxFromNames (names : List String) (start : StatIdx) : StatIdx :=
  names.enum.foldl (fun acc p =>
    let u := strUpper p.2
    let a1 := if acc.pts.isNone ∧ strContains u "PTS" then { acc with pts := some p.1 } else acc
    let a2 := if a1.reb.isNone ∧ strContains u "REB" then { a1 with reb := some p.1 } else a1
    let a3 := if a2.ast.isNone ∧ strContains u "AST" then { a2 with ast := some p.1 } else a2
    let a4 := if a3.stl.isNone ∧ strContains u "STL" then { a3 with stl := some p.1 } else a3
    if a4.blk.isNone ∧ strContains u "BLK" then { a4 with blk := some p.1 } else a4) start

/-- Combined index discovery: labels pass, then the names pass when any of
PTS/REB/AST is still missing (src/data_fetcher.py:332). -/
def findStatIdx (g : StatsGroup) : StatIdx :=
  let fromLabels := findIdxFromLabels g.labels
  if fromLabels.pts.isNone ∨ fromLabels.reb.isNone ∨ fromLabels.ast.isNone then
    refineIdxFromNames g.names fromLabels
  else fromLabels

/-- Read one stat cell (src/data_fetcher.py:382-391): an undiscovered index,
an out-of-range index, or a falsy cell yields 0; a truthy cell is converted
with `int(...)`, whose failure (`none`) models the raised
`ValueError`/`TypeError`. -/
def statAt (stats : List PyVal) (idx : Option Nat) : Option Int :=
  match idx with
  | none => some 0
  | some i =>
    match stats.get? i with
    | none => some 0
    | some v => if pyTruthy v then pyToInt v else some 0

/-- The five per-athlete stat values extracted by the boxscore loop. -/
structure Stat5 where
  pts : Int
  reb : Int
  ast : Int
  stl : Int
  blk : Int
deriving DecidableEq, Repr, Inhabited

/-- Per-athlete stat extraction (src/data_fetcher.py:373-391): an athlete with
an empty `stats` array is skipped, and a conversion failure on any of the five
cells aborts the athlete (the `except ... continue`). -/
def parseAthleteStats (idx : StatIdx) (a : BAthlete) : Option Stat5 :=
  if a.stats = [] then none
  else do
    let p ← statAt a.stats idx.pts
    let r ← statAt a.stats idx.reb
    let s ← statAt a.stats idx.ast
    let t ← statAt a.stats idx.stl
    let b ← statAt a.stats idx.blk
    pure ⟨p, r, s, t, b⟩

/-- Running-maximum tracker, modelling `{'name': None, 'value': 0}`. -/
structure MaxT where
  name : Option String
  value : Int
deriving DecidableEq, Repr, Inhabited

/-- Initial tracker state `{'name': None, 'value': 0}`. -/
def initMax : MaxT := ⟨none, 0⟩

/-- Update a tracker with a candidate (src/data_fetcher.py:394-404): replace
only on a strictly greater value, so earlier ties win. -/
def updMax (m : MaxT) (n : String) (v : Int) : MaxT :=
  if v > m.value then ⟨some n, v⟩ else m

/-- The five simultaneous trackers of the boxscore loop. -/
structure Max5 where
  pts : MaxT
  reb : MaxT
  ast : MaxT
  stl : MaxT
  blk : MaxT
deriving DecidableEq, Repr, Inhabited

/-- One iteration of the boxscore athlete loop (src/data_fetcher.py:359-407):
STL/BLK trackers are updated only when expanded stats are requested. -/
def trackStep (idx : StatIdx) (expanded : Bool) (st : Max5) (a : BAthlete) : Max5 :=
  match parseAthleteStats idx a with
  | none => st
  | some q =>
    let nm := athleteName a
    { pts := updMax st.pts nm q.pts
      reb := updMax st.reb nm q.reb
      ast := updMax st.ast nm q.ast
      stl := if expanded then updMax st.stl nm q.stl else st.stl
      blk := if expanded then updMax st.blk nm q.blk else st.blk }

/-- The whole boxscore athlete loop. -/
def trackAthletes (idx : StatIdx) (expanded : Bool) (athletes : List BAthlete) : Max5 :=
  athletes.foldl (trackStep idx expanded) ⟨initMax, initMax, initMax, initMax, initMax⟩

/-- One leader entry `{'name': ..., 'value': ...}`. -/
structure BEntry where
  name : String
  value : Int
deriving DecidableEq, Repr, Inhabited

/-- Wrap a finished tracker as a category value
(src/data_fetcher.py:410-420): present only when the tracked name is truthy,
as a one-element list. -/
def maxToCat (m : MaxT) : Option (List BEntry) :=
  match m.name with
  | some nm => if nm ≠ "" then some [⟨nm, m.value⟩] else none
  | none => none

/-- Basketball leaders mapping with list-valued categories; a `none` field
models an absent dictionary key. -/
structure BBLeaders where
  pts : Option (List BEntry)
  reb : Option (List BEntry)
  ast : Option (List BEntry)
  stl : Option (List BEntry)
  blk : Option (List BEntry)
deriving DecidableEq, Repr, Inhabited

/-- Assembly of the leaders dictionary from the finished trackers
(src/data_fetcher.py:409-420): STL/BLK keys are only set when expanded. -/
def assembleBBLeaders (m : Max5) (expanded : Bool) : BBLeaders :=
  { pts := maxToCat m.pts
    reb := maxToCat m.reb
    ast := maxToCat m.ast
    stl := if expanded then maxToCat m.stl else none
    blk := if expanded then maxToCat m.blk else none }

/-- Embedding of `DataFetcher._extract_boxscore_basketball_leaders`
(src/data_fetcher.py:251-426).  The final guard models
`return leaders if leaders else None` (an empty dictionary is falsy). -/
def extractBoxscoreBasketballLeaders (box : EspnBoxscore) (teamAbbr : String)
    (expanded : Bool) : Option BBLeaders :=
  match box.players.find? (fun t => t.abbreviation.getD "" = teamAbbr) with
  | none => none
  | some teamData =>
    match teamData.statistics with
    | [] => none
    | g :: _ =>
      if g.athletes = [] then none
      else
        if assembleBBLeaders (trackAthletes (findStatIdx g) expanded g.athletes) expanded
            = ⟨none, none, none, none, none⟩ then none
        else some (assembleBBLeaders (trackAthletes (findStatIdx g) expanded g.athletes) expanded)

/-- The stats group the extractor works on for a given team abbreviation
(statement-level helper: first statistics entry of the matching team). -/
def teamStatsGroup (box : EspnBoxscore) (teamAbbr : String) : Option StatsGroup :=
  (box.players.find? (fun t => t.abbreviation.getD "" = teamAbbr)).bind
    (fun td => td.statistics.head?)

/-- The (name, value) pairs of the athletes that survive stat parsing, for one
stat category, in upstream iteration order. -/
def catPairs (g : StatsGroup) (proj : Stat5 → Int) : List (String × Int) :=
  g.athletes.filterMap
    (fun a => (parseAthleteStats (findStatIdx g) a).map (fun q => (athleteName a, proj q)))

/-- Sequential max tracking over a pair list (reference form of the loop). -/
def runMax : List (String × Int) → MaxT → MaxT
  | [], m => m
  | p :: rest, m => runMax rest (updMax m p.1 p.2)

/-- The (name, value) pairs of the athletes that survive stat parsing, for one
stat projection, in upstream iteration order. -/
def pairsOf (idx : StatIdx) (proj : Stat5 → Int) (aths : List BAthlete) :
    List (String × Int) :=
  aths.filterMap
    (fun a => (parseAthleteStats idx a).map (fun q => (athleteName a, proj q)))

/-- The leader property C10 asserts for one category: the list is exactly one
entry, that entry is the first surviving athlete attaining the maximum value
(strictly above every earlier athlete, at least every other athlete), and its
value is positive. -/
def firstMaxLeader (pairs : List (String × Int)) (l : List BEntry) : Prop :=
  ∃ pre q post, pairs = pre ++ q :: post ∧ l = [⟨q.1, q.2⟩] ∧ 0 < q.2 ∧
    (∀ p ∈ pre, p.2 < q.2) ∧ (∀ p ∈ pairs, p.2 ≤ q.2)

/-- Concrete ESPN boxscore used by the C10 and C1 witnesses: team LAL with two
athletes and a PTS/REB/AST label row. -/
def wBoxC10 : EspnBoxscore :=
  ⟨[⟨some "LAL",
     [⟨["PTS", "REB", "AST"], [],
       [⟨some ⟨some "Alice Ace", none⟩, [.vInt 10, .vInt 5, .vInt 3]⟩,
        ⟨some ⟨some "Bob Best", none⟩, [.vInt 12, .vInt 2, .vInt 7]⟩]⟩]⟩]⟩

/-- Leaders dictionary the C10 witness boxscore extracts to. -/
def wLdrC10 : BBLeaders :=
  ⟨some [⟨"Bob Best", 12⟩], some [⟨"Alice Ace", 5⟩], some [⟨"Bob Best", 7⟩], none, none⟩

/-! ### ESPN scoreboard competitor model (fallback leader extraction) -/

/-- One entry of a competitor's `statistics` array on the scoreboard. -/
structure FallSection where
  name : Option String
  athletes : Option (List BAthlete)
deriving DecidableEq, Repr, Inhabited

/-- The `team` block of a competitor. -/
structure EspnTeam where
  abbreviation : Option String
deriving DecidableEq, Repr, Inhabited

/-- ESPN scoreboard competitor, restricted to the fields the code reads. -/
structure Competitor where
  homeAway : Option String
  team : Option EspnTeam
  score : Option PyVal
  statistics : List FallSection
deriving DecidableEq, Repr, Inhabited

/-- One iteration of the fallback per-category loop
(src/data_fetcher.py:484-496): a too-short stats array skips the athlete, a
failed `int(...)` skips the athlete (`except ... continue`), otherwise the
tracker is updated on a strictly greater value. -/
def fallbackCatStep (statIndex : Nat) (st : MaxT) (a : BAthlete) : MaxT :=
  match a.stats.get? statIndex with
  | none => st
  | some v =>
    match pyToInt v with
    | none => st
    | some n => updMax st (athleteName a) n

/-- Fallback leader for one category (src/data_fetcher.py:480-502):
present only when a truthy name was recorded with a positive value. -/
def fallbackCatLeader (aths : List BAthlete) (statIndex : Nat) : Option BEntry :=
  match aths.foldl (fallbackCatStep statIndex) initMax with
  | ⟨some nm, v⟩ => if nm ≠ "" ∧ v > 0 then some ⟨nm, v⟩ else none
  | ⟨none, _⟩ => none

/-- Basketball leaders mapping of the scoreboard fallback path: single-entry
categories (src/data_fetcher.py:498-502). -/
structure BBFallLeaders where
  pts : Option BEntry
  reb : Option BEntry
  ast : Option BEntry
  stl : Option BEntry
  blk : Option BEntry
deriving DecidableEq, Repr, Inhabited

/-- Embedding of `DataFetcher.extract_basketball_leaders`
(src/data_fetcher.py:444-508), using the fixed `BASKETBALL_STAT_INDICES`
(PTS 15, REB 10, AST 11, STL 13, BLK 14). -/
def extractBasketballLeaders (c : Competitor) : Option BBFallLeaders :=
  if c.statistics = [] then none
  else
    match c.statistics.find? (fun s => s.name = some "athletes") with
    | none => none
    | some sec =>
      match sec.athletes with
      | none => none
      | some aths =>
        if aths = [] then none
        else
          if (⟨fallbackCatLeader aths 15, fallbackCatLeader aths 10, fallbackCatLeader aths 11,
              fallbackCatLeader aths 13, fallbackCatLeader aths 14⟩ : BBFallLeaders)
              = ⟨none, none, none, none, none⟩ then none
          else
            some ⟨fallbackCatLeader aths 15, fallbackCatLeader aths 10,
              fallbackCatLeader aths 11, fallbackCatLeader aths 13, fallbackCatLeader aths 14⟩

/-- The athletes list the fallback extractor works on (statement-level
helper). -/
def fallAthletes (c : Competitor) : Option (List BAthlete) :=
  (c.statistics.find? (fun s => s.name = some "athletes")).bind (fun sec => sec.athletes)

/-- The (name, value) pairs surviving the fallback per-category loop, in
upstream iteration order. -/
def fallbackCatPairs (aths : List BAthlete) (statIndex : Nat) : List (String × Int) :=
  aths.filterMap
    (fun a => ((a.stats.get? statIndex).bind pyToInt).map (fun n => (athleteName a, n)))

/-! ### Football leader extraction -/

/-- One football leader entry `{'name': ..., 'stats': ...}`. -/
structure FBEntry where
  name : String
  stats : String
deriving DecidableEq, Repr, Inhabited

/-- Football leaders mapping (QB/WR/RB). -/
structure FBLeaders where
  qb : Option FBEntry
  wr : Option FBEntry
  rb : Option FBEntry
deriving DecidableEq, Repr, Inhabited

/-- Entry built from the first athlete of a football stats section
(src/data_fetcher.py:533-546): requires at least four stat cells, formats the
raw yards and touchdown cells as `"{yards} YDS, {touchdowns} TD"` and
abbreviates the athlete's `displayName` (default `"Unknown"`). -/
def fbFromAthlete (a : BAthlete) (ydsIdx tdsIdx : Nat) : Option FBEntry :=
  if a.stats.length ≥ 4 then
    some ⟨abbreviateName ((a.athlete.getD ⟨none, none⟩).displayName.getD "Unknown"),
      pyToStr (a.stats.getD ydsIdx .vNone) ++ " YDS, "
        ++ pyToStr (a.stats.getD tdsIdx .vNone) ++ " TD"⟩
  else none

/-- One football category of `extract_football_leaders`
(src/data_fetcher.py:530-588): first section whose name matches, then its
first athlete (index 0 — the upstream's own leader, not re-derived). -/
def fbCategory (sections : List FallSection) (secName : String)
    (ydsIdx tdsIdx : Nat) : Option FBEntry :=
  match (sections.find? (fun s => s.name = some secName)).bind (fun sec => sec.athletes) with
  | none => none
  | some [] => none
  | some (a :: _) => fbFromAthlete a ydsIdx tdsIdx

/-- Embedding of `DataFetcher.extract_football_leaders`
(src/data_fetcher.py:510-594): QB from `passing` (yards index 2, TD index 3),
WR from `receiving` (1, 3), RB from `rushing` (1, 3). -/
def extractFootballLeaders (c : Competitor) : Option FBLeaders :=
  if c.statistics = [] then none
  else
    if (⟨fbCategory c.statistics "passing" 2 3, fbCategory c.statistics "receiving" 1 3,
        fbCategory c.statistics "rushing" 1 3⟩ : FBLeaders) = ⟨none, none, none⟩ then none
    else
      some ⟨fbCategory c.statistics "passing" 2 3, fbCategory c.statistics "receiving" 1 3,
        fbCategory c.statistics "rushing" 1 3⟩

/-- Embedding of `DataFetcher._extract_boxscore_football_leaders`
(src/data_fetcher.py:428-442): a stub that returns `None` for every input
("For now, return None as football structure may differ"). -/
def extractBoxscoreFootballLeaders (_box : EspnBoxscore) (_homeAway : String) :
    Option FBLeaders :=
  none

/-! ### NCAA boxscore model (ncaam leader extraction) -/

/-- One NCAA player row (`playerStats` entry); stat fields are read with
`.get(key, 0)`, so a missing field maps to `none`. -/
structure NPlayer where
  firstName : Option String
  lastName : Option String
  points : Option PyVal
  totalRebounds : Option PyVal
  assists : Option PyVal
  steals : Option PyVal
  blocks : Option PyVal
deriving DecidableEq, Repr, Inhabited

/-- One entry of the NCAA boxscore `teams` array. -/
structure NTeamInfo where
  isHome : Option Bool
  nameShort : Option String
deriving DecidableEq, Repr, Inhabited

/-- One entry of the NCAA boxscore `teamBoxscore` array. -/
structure NTeamBox where
  playerStats : List NPlayer
deriving DecidableEq, Repr, Inhabited

/-- NCAA boxscore response, restricted to the fields the code reads. -/
structure NcaaBoxscore where
  teams : List NTeamInfo
  teamBoxscore : List NTeamBox
deriving DecidableEq, Repr, Inhabited

/-- Full player name `f"{first} {last}".strip()` (src/data_fetcher.py:890). -/
def nPlayerName (p : NPlayer) : String :=
  strStrip (p.firstName.getD "" ++ " " ++ p.lastName.getD "")

/-- Model of `int(player.get(key, 0) or 0)` (src/data_fetcher.py:894-906): a
missing or falsy field yields 0, a truthy field is converted with `int(...)`
(`none` models the raised `ValueError`/`TypeError`). -/
def nStat (v : Option PyVal) : Option Int :=
  match v with
  | none => some 0
  | some x => if pyTruthy x then pyToInt x else some 0

/-- The five per-category candidate lists accumulated by the NCAA player
loop. -/
structure NLists where
  pts : List BEntry
  reb : List BEntry
  ast : List BEntry
  stl : List BEntry
  blk : List BEntry
deriving DecidableEq, Repr, Inhabited

/-- One iteration of the NCAA player loop (src/data_fetcher.py:887-912):
PTS/REB/AST are parsed then appended together; when expanded, STL/BLK are
parsed after those appends, so a failure there keeps the first three entries
(the `except ... continue` fires mid-iteration). -/
def nCollectStep (expanded : Bool) (st : NLists) (p : NPlayer) : NLists :=
  match nStat p.points, nStat p.totalRebounds, nStat p.assists with
  | some pv, some rv, some av =>
    let st1 : NLists :=
      { st with pts := st.pts ++ [⟨nPlayerName p, pv⟩],
                reb := st.reb ++ [⟨nPlayerName p, rv⟩],
                ast := st.ast ++ [⟨nPlayerName p, av⟩] }
    if expanded then
      match nStat p.steals, nStat p.blocks with
      | some sv, some bv =>
        { st1 with stl := st1.stl ++ [⟨nPlayerName p, sv⟩],
                   blk := st1.blk ++ [⟨nPlayerName p, bv⟩] }
      | _, _ => st1
    else st1
  | _, _, _ => st

/-- Stable descending insertion of one entry: the new entry goes after every
existing entry with an equal-or-greater value. -/
def insDesc (e : BEntry) : List BEntry → List BEntry
  | [] => [e]
  | x :: xs => if e.value ≤ x.value then x :: insDesc e xs else e :: x :: xs

/-- Model of Python `sorted(lst, key=lambda x: x['value'], reverse=True)`:
stable sort by value descending (ties keep upstream iteration order). -/
def sortDesc (l : List BEntry) : List BEntry :=
  l.foldl (fun acc e => insDesc e acc) []

/-- One NCAA category result (src/data_fetcher.py:920-953): present only when
the sorted list is non-empty with a positive top value, and then truncated to
the first `numLeaders` entries — trailing entries are not filtered by value. -/
def nCatLeaders (l : List BEntry) (numLeaders : Nat) : Option (List BEntry) :=
  match sortDesc l with
  | [] => none
  | q :: rest => if q.value > 0 then some ((q :: rest).take numLeaders) else none

/-- Assembly of the NCAA leaders dictionary (src/data_fetcher.py:914-953):
up to 2 leaders per category, 10 when expanded; STL/BLK only when expanded. -/
def assembleNcaaLeaders (ls : NLists) (expanded : Bool) : BBLeaders :=
  { pts := nCatLeaders ls.pts (if expanded then 10 else 2)
    reb := nCatLeaders ls.reb (if expanded then 10 else 2)
    ast := nCatLeaders ls.ast (if expanded then 10 else 2)
    stl := if expanded then nCatLeaders ls.stl 10 else none
    blk := if expanded then nCatLeaders ls.blk 10 else none }

/-- Embedding of `DataFetcher._extract_ncaa_basketball_leaders`
(src/data_fetcher.py:837-959). -/
def extractNcaaBasketballLeaders (box : NcaaBoxscore) (isHome : Bool)
    (expanded : Bool) : Option BBLeaders :=
  if box.teams = [] ∨ box.teamBoxscore = [] then none
  else
    match box.teams.findIdx? (fun t => t.isHome = some isHome) with
    | none => none
    | some teamIndex =>
      match box.teamBoxscore.get? teamIndex with
      | none => none
      | some teamData =>
        if teamData.playerStats = [] then none
        else
          if assembleNcaaLeaders
              (teamData.playerStats.foldl (nCollectStep expanded) ⟨[], [], [], [], []⟩)
              expanded = ⟨none, none, none, none, none⟩ then none
          else
            some (assembleNcaaLeaders
              (teamData.playerStats.foldl (nCollectStep expanded) ⟨[], [], [], [], []⟩)
              expanded)

/-- The candidate lists the NCAA extractor works on (statement-level
helper). -/
def ncaaLists (box : NcaaBoxscore) (isHome : Bool) (expanded : Bool) :
    Option NLists :=
  (box.teams.findIdx? (fun t => t.isHome = some isHome)).bind (fun i =>
    (box.teamBoxscore.get? i).map
      (fun td => td.playerStats.foldl (nCollectStep expanded) ⟨[], [], [], [], []⟩))

/-- C1 property for a list-valued category of the ESPN boxscore path: every
entry of a present category is positive, and a category with no positive
surviving value is absent. -/
def catAllPos (pairs : List (String × Int)) (cat : Option (List BEntry)) : Prop :=
  (∀ l, cat = some l → l ≠ [] ∧ ∀ e ∈ l, 0 < e.value) ∧
  ((∀ p ∈ pairs, p.2 ≤ 0) → cat = none)

/-- C1 property for a single-entry category of the scoreboard fallback path. -/
def catOkSingle (pairs : List (String × Int)) (cat : Option BEntry) : Prop :=
  (∀ e, cat = some e → 0 < e.value) ∧
  ((∀ p ∈ pairs, p.2 ≤ 0) → cat = none)

/-- Amended C1 property for an NCAA category: a present category is a
non-empty list whose first (top) entry is positive, and a category whose
candidates are all non-positive is absent.  (Trailing entries may be 0.) -/
def catHeadPos (entries : List BEntry) (cat : Option (List BEntry)) : Prop :=
  (∀ l, cat = some l → ∃ q t, l = q :: t ∧ 0 < q.value) ∧
  ((∀ e ∈ entries, e.value ≤ 0) → cat = none)

/-- Concrete NCAA boxscore for the C1 counterexample: one home team, a
10-point player followed by a 0-point player. -/
def wNcaaCex : NcaaBoxscore :=
  ⟨[⟨some true, none⟩],
   [⟨[⟨some "Ann", some "Alpha", some (.vInt 10), some (.vInt 0), some (.vInt 0), none, none⟩,
      ⟨some "Bea", some "Beta", some (.vInt 0), some (.vInt 0), some (.vInt 0), none, none⟩]⟩]⟩

/-- Concrete fallback competitor for the C1 witness: an `athletes` section
with two athletes and 16-cell stat arrays. -/
def wCompFall : Competitor :=
  ⟨none, none, none,
   [⟨some "athletes",
     some [⟨some ⟨some "Cara Core", none⟩,
            [.vInt 0, .vInt 0, .vInt 0, .vInt 0, .vInt 0, .vInt 0, .vInt 0, .vInt 0,
             .vInt 0, .vInt 0, .vInt 4, .vInt 2, .vInt 0, .vInt 1, .vInt 0, .vInt 9]⟩,
           ⟨some ⟨some "Dan Dash", none⟩,
            [.vInt 0, .vInt 0, .vInt 0, .vInt 0, .vInt 0, .vInt 0, .vInt 0, .vInt 0,
             .vInt 0, .vInt 0, .vInt 1, .vInt 5, .vInt 0, .vInt 0, .vInt 2, .vInt 0]⟩]⟩]⟩

/-- Leaders dictionary the C1 fallback witness competitor extracts to. -/
def wFallL : BBFallLeaders :=
  ⟨some ⟨"Cara Core", 9⟩, some ⟨"Cara Core", 4⟩, some ⟨"Dan Dash", 5⟩,
   some ⟨"Cara Core", 1⟩, some ⟨"Dan Dash", 2⟩⟩

/-- Leaders dictionary the C1 NCAA counterexample boxscore extracts to: the
PTS list carries a trailing entry with value 0. -/
def wNcaaL : BBLeaders :=
  ⟨some [⟨"Ann Alpha", 10⟩, ⟨"Bea Beta", 0⟩], none, none, none, none⟩

/-! ### ESPN scoreboard event model and game parsing -/

/-- The `status.type` block of an event. -/
structure StatusType where
  state : Option String
  shortDetail : Option String
  detail : Option String
deriving DecidableEq, Repr, Inhabited

/-- The `status` block of an event. -/
structure Status where
  type : Option StatusType
  period : Option Int
  displayClock : Option String
deriving DecidableEq, Repr, Inhabited

/-- One entry of an event's `competitions` array. -/
structure Competition where
  competitors : List Competitor
deriving DecidableEq, Repr, Inhabited

/-- One ESPN scoreboard event, restricted to the fields the code reads. -/
structure Event where
  id : Option String
  competitions : Option (List Competition)
  status : Option Status
deriving DecidableEq, Repr, Inhabited

/-- ESPN scoreboard response. -/
structure Scoreboard where
  events : Option (List Event)
deriving DecidableEq, Repr, Inhabited

/-- Leaders value stored under a `home_leaders`/`away_leaders` key: the
payload shape differs per extraction path. -/
inductive LeadersU where
  | bbBox : BBLeaders → LeadersU
  | bbFall : BBFallLeaders → LeadersU
  | fb : FBLeaders → LeadersU
  | ncaa : BBLeaders → LeadersU
deriving DecidableEq, Repr

/-- One parsed game dictionary (src/data_fetcher.py:172-211 and 777-808).
The leader fields are doubly optional: the outer `Option` models whether the
dictionary key was set at all, the inner one the stored value (which is
`None` when an extractor found nothing). -/
structure GameRecord where
  id : Option String
  league : String
  home_abbr : String
  away_abbr : String
  home_name : Option String
  away_name : Option String
  home_record : Option String
  away_record : Option String
  home_rank : Option String
  away_rank : Option String
  home_score : Int
  away_score : Int
  period : Int
  clock : String
  period_text : String
  is_favorite : Bool
  expanded_stats : Bool
  home_leaders : Option (Option LeadersU)
  away_leaders : Option (Option LeadersU)
deriving DecidableEq, Repr, Inhabited

/-- Model of `event.get('competitions', [{}])[0]` (src/data_fetcher.py:147):
a missing key defaults to `[{}]` whose first element is the empty dict; an
explicitly empty list raises `IndexError` (caught, so the event parses to
`None`). -/
def eventCompetition (e : Event) : Option Competition :=
  match e.competitions with
  | none => some ⟨[]⟩
  | some [] => none
  | some (c :: _) => some c

/-- Status state of an event:
`event.get('status', {}).get('type', {}).get('state')`. -/
def eventState (e : Event) : Option String :=
  ((e.status.getD ⟨none, none, none⟩).type.getD ⟨none, none, none⟩).state

/-- Model of `[t.upper() for t in favorite_teams]`. -/
def upperList (l : List String) : List String := l.map strUpper

/-- Leader assignment of `_parse_game_event` (src/data_fetcher.py:186-209):
with a truthy game id, a successful boxscore fetch routes basketball to the
boxscore extractor and football to the (stub) boxscore football extractor,
while a failed fetch falls back to the scoreboard competitor extractors; the
keys are not set at all without a truthy game id. -/
def espnLeadersPair (boxOracle : String → Option EspnBoxscore) (eventId : Option String)
    (leagueKey : String) (homeTeam awayTeam : Competitor) (homeAbbr awayAbbr : String)
    (expandedStats : Bool) : Option (Option LeadersU) × Option (Option LeadersU) :=
  match eventId with
  | some gid =>
    if gid ≠ "" then
      match boxOracle gid with
      | some box =>
        if leagueKey = "nba" ∨ leagueKey = "ncaam" then
          (some ((extractBoxscoreBasketballLeaders box homeAbbr expandedStats).map .bbBox),
           some ((extractBoxscoreBasketballLeaders box awayAbbr expandedStats).map .bbBox))
        else if leagueKey = "nfl" ∨ leagueKey = "ncaaf" then
          (some ((extractBoxscoreFootballLeaders box "home").map .fb),
           some ((extractBoxscoreFootballLeaders box "away").map .fb))
        else (none, none)
      | none =>
        if leagueKey = "nba" ∨ leagueKey = "ncaam" then
          (some ((extractBasketballLeaders homeTeam).map .bbFall),
           some ((extractBasketballLeaders awayTeam).map .bbFall))
        else if leagueKey = "nfl" ∨ leagueKey = "ncaaf" then
          (some ((extractFootballLeaders homeTeam).map .fb),
           some ((extractFootballLeaders awayTeam).map .fb))
        else (none, none)
    else (none, none)
  | none => (none, none)

/-- Record construction of `_parse_game_event` (src/data_fetcher.py:162-211)
once home and away competitors are identified: a failing `int(score)` raises
into the handler and drops the event (`none`). -/
def buildGameRecord (boxOracle : String → Option EspnBoxscore) (event : Event)
    (leagueKey : String) (favoriteTeams : List String) (favExpanded : Bool)
    (homeTeam awayTeam : Competitor) : Option GameRecord :=
  match pyToInt (homeTeam.score.getD (.vInt 0)),
        pyToInt (awayTeam.score.getD (.vInt 0)) with
  | some homeScore, some awayScore =>
    let status := event.status.getD ⟨none, none, none⟩
    let homeAbbr := ((homeTeam.team.getD ⟨none⟩).abbreviation).getD "HOME"
    let awayAbbr := ((awayTeam.team.getD ⟨none⟩).abbreviation).getD "AWAY"
    let isFav :=
      if favoriteTeams = [] then false
      else (upperList favoriteTeams).contains (strUpper homeAbbr)
        || (upperList favoriteTeams).contains (strUpper awayAbbr)
    some
      { id := event.id
        league := leagueKey
        home_abbr := homeAbbr
        away_abbr := awayAbbr
        home_name := none
        away_name := none
        home_record := none
        away_record := none
        home_rank := none
        away_rank := none
        home_score := homeScore
        away_score := awayScore
        period := status.period.getD 0
        clock := status.displayClock.getD ""
        period_text := (status.type.getD ⟨none, none, none⟩).shortDetail.getD ""
        is_favorite := isFav
        expanded_stats := isFav && favExpanded
        home_leaders := (espnLeadersPair boxOracle event.id leagueKey homeTeam awayTeam
          homeAbbr awayAbbr (isFav && favExpanded)).1
        away_leaders := (espnLeadersPair boxOracle event.id leagueKey homeTeam awayTeam
          homeAbbr awayAbbr (isFav && favExpanded)).2 }
  | _, _ => none

/-- Embedding of `DataFetcher._parse_game_event` (src/data_fetcher.py:132-215)
with the boxscore fetch abstracted as an oracle from game id to response
(`none` covers both a failed fetch and the swallowing handler of
`_fetch_game_boxscore`).  A `none` result models the `return None` paths and
the `except` handler. -/
def parseGameEvent (boxOracle : String → Option EspnBoxscore) (event : Event)
    (leagueKey : String) (favoriteTeams : List String) (favExpanded : Bool) :
    Option GameRecord :=
  match eventCompetition event with
  | none => none
  | some competition =>
    if competition.competitors.length < 2 then none
    else
      match competition.competitors.find? (fun c => c.homeAway = some "home"),
            competition.competitors.find? (fun c => c.homeAway = some "away") with
      | some homeTeam, some awayTeam =>
        buildGameRecord boxOracle event leagueKey favoriteTeams favExpanded homeTeam awayTeam
      | _, _ => none

/-! ### NCAA scoreboard model -/

/-- The `names` block of an NCAA team. -/
structure NcaaNames where
  char6 : Option String
  short : Option String
deriving DecidableEq, Repr, Inhabited

/-- One conference entry of an NCAA team. -/
structure NcaaConf where
  conferenceSeo : Option String
deriving DecidableEq, Repr, Inhabited

/-- One NCAA scoreboard team, restricted to the fields the code reads. -/
structure NcaaTeam where
  names : Option NcaaNames
  description : Option String
  rank : Option String
  score : Option PyVal
  conferences : List NcaaConf
deriving DecidableEq, Repr, Inhabited

/-- One NCAA scoreboard game. -/
structure NcaaGame where
  gameID : Option String
  gameState : Option String
  away : Option NcaaTeam
  home : Option NcaaTeam
  contestClock : Option String
  currentPeriod : Option String
deriving DecidableEq, Repr, Inhabited

/-- One entry of the NCAA scoreboard `games` array. -/
structure NcaaGameWrapper where
  game : Option NcaaGame
deriving DecidableEq, Repr, Inhabited

/-- NCAA scoreboard response. -/
structure NcaaScoreboard where
  games : Option (List NcaaGameWrapper)
deriving DecidableEq, Repr, Inhabited

/-- The six power-conference slugs (src/data_fetcher.py:731-733). -/
def powerConferenceSlugs : List String :=
  ["big-ten", "big-12", "sec", "acc", "big-east", "pac-12"]

/-- Embedding of `DataFetcher._is_power_conference_game`
(src/data_fetcher.py:712-757). -/
def isPowerConferenceGame (game : NcaaGame) : Bool :=
  (game.away.getD ⟨none, none, none, none, []⟩).conferences.any
    (fun conf => powerConferenceSlugs.contains (strLower (conf.conferenceSeo.getD "")))
  || (game.home.getD ⟨none, none, none, none, []⟩).conferences.any
    (fun conf => powerConferenceSlugs.contains (strLower (conf.conferenceSeo.getD "")))

/-- Embedding of `DataFetcher._parse_ncaa_game` (src/data_fetcher.py:759-812),
with the NCAA boxscore fetch abstracted as an oracle. -/
def parseNcaaGame (ncaaBoxOracle : String → Option NcaaBoxscore) (game : NcaaGame)
    (isFav : Bool) (expanded : Bool) : Option GameRecord :=
  match pyToInt ((game.home.getD ⟨none, none, none, none, []⟩).score.getD (.vInt 0)),
        pyToInt ((game.away.getD ⟨none, none, none, none, []⟩).score.getD (.vInt 0)) with
  | some homeScore, some awayScore =>
    let home := game.home.getD ⟨none, none, none, none, []⟩
    let away := game.away.getD ⟨none, none, none, none, []⟩
    let leadersPair : Option (Option LeadersU) × Option (Option LeadersU) :=
      match game.gameID with
      | some gid =>
        if gid ≠ "" then
          match ncaaBoxOracle gid with
          | some box =>
            (some ((extractNcaaBasketballLeaders box true (isFav && expanded)).map .ncaa),
             some ((extractNcaaBasketballLeaders box false (isFav && expanded)).map .ncaa))
          | none => (none, none)
        else (none, none)
      | none => (none, none)
    some
      { id := game.gameID
        league := "ncaam"
        home_abbr := ((home.names.getD ⟨none, none⟩).char6).getD "HOME"
        away_abbr := ((away.names.getD ⟨none, none⟩).char6).getD "AWAY"
        home_name := some (((home.names.getD ⟨none, none⟩).short).getD "HOME")
        away_name := some (((away.names.getD ⟨none, none⟩).short).getD "AWAY")
        home_record := some (home.description.getD "")
        away_record := some (away.description.getD "")
        home_rank := some (home.rank.getD "")
        away_rank := some (away.rank.getD "")
        home_score := homeScore
        away_score := awayScore
        period := 0
        clock := game.contestClock.getD ""
        period_text := game.currentPeriod.getD ""
        is_favorite := isFav
        expanded_stats := isFav && expanded
        home_leaders := leadersPair.1
        away_leaders := leadersPair.2 }
  | _, _ => none

/-! ### Live-game collection loops -/

/-- Status filter and parse step of the ESPN loop body
(src/data_fetcher.py:114-120): only events with status state `"in"` are
parsed.  This is the part of the loop body after the logging block; the
unguarded competitions indexing of the logging block (line 107) is modelled
separately in `collectLiveEspn`. -/
def liveParse (parse : Event → Option GameRecord) (e : Event) : Option GameRecord :=
  if eventState e ≠ some "in" then none else parse e

/-- ESPN collection loop (src/data_fetcher.py:96-126).  Each iteration first
checks the cap; then the logging block evaluates
`event.get('competitions', [{}])[0]` (line 107) for every event, unguarded:
an event whose `competitions` key holds an explicitly empty list raises
IndexError out of the loop — modelled as `none` — which the handler at line
128 turns into an empty result for the whole league, discarding every game
already collected.  Otherwise live events are parsed and collected, and an
individual parse failure only skips that event. -/
def collectLiveEspn (parse : Event → Option GameRecord) (maxGames : Nat) :
    List Event → List GameRecord → Option (List GameRecord)
  | [], acc => some acc
  | e :: es, acc =>
    if acc.length ≥ maxGames then some acc
    else
      match eventCompetition e with
      | none => none
      | some _ =>
        match liveParse parse e with
        | some g => collectLiveEspn parse maxGames es (acc ++ [g])
        | none => collectLiveEspn parse maxGames es acc

/-- The `game` block of a scoreboard wrapper (`game_wrapper.get('game', {})`). -/
def wrapperGame (w : NcaaGameWrapper) : NcaaGame :=
  w.game.getD ⟨none, none, none, none, none, none⟩

/-- The away team's `char6` name used for logging and the favorite filter. -/
def ncaaAwayChar6 (game : NcaaGame) : String :=
  ((game.away.getD ⟨none, none, none, none, []⟩).names.getD ⟨none, none⟩).char6.getD "?"

/-- The home team's `char6` name used for logging and the favorite filter. -/
def ncaaHomeChar6 (game : NcaaGame) : String :=
  ((game.home.getD ⟨none, none, none, none, []⟩).names.getD ⟨none, none⟩).char6.getD "?"

/-- Per-wrapper decision of the NCAA loop body (src/data_fetcher.py:660-700):
only games in state `"live"` are kept, optionally filtered to power
conferences and to favorite teams (a favorite match sets the favorite flag,
a miss skips the game entirely). -/
def ncaaKeep (ncaaBoxOracle : String → Option NcaaBoxscore) (power : Bool)
    (favs : List String) (favExp : Bool) (w : NcaaGameWrapper) : Option GameRecord :=
  if ((wrapperGame w).gameState.getD "") ≠ "live" then none
  else if power && !(isPowerConferenceGame (wrapperGame w)) then none
  else if favs = [] then parseNcaaGame ncaaBoxOracle (wrapperGame w) false favExp
  else if (upperList favs).contains (strUpper (ncaaAwayChar6 (wrapperGame w)))
      || (upperList favs).contains (strUpper (ncaaHomeChar6 (wrapperGame w))) then
    parseNcaaGame ncaaBoxOracle (wrapperGame w) true favExp
  else none

/-- NCAA collection loop shape (src/data_fetcher.py:660-703): stop as soon
as the accumulated list reaches `maxItems`, otherwise append whatever the
per-item decision keeps.  (Unlike the ESPN loop, the NCAA loop body reads
every field with defaulted `.get` chains and cannot raise.) -/
def collectCapped (keep : α → Option β) (maxItems : Nat) :
    List α → List β → List β
  | [], acc => acc
  | x :: xs, acc =>
    if acc.length ≥ maxItems then acc
    else
      match keep x with
      | some g => collectCapped keep maxItems xs (acc ++ [g])
      | none => collectCapped keep maxItems xs acc

/-- The keys of `LEAGUE_MAP` (src/data_fetcher.py:13-18). -/
def leagueMapKeys : List String := ["nba", "nfl", "ncaam", "ncaaf"]

/-- The upstream world `fetch_live_games` runs against: the ESPN scoreboard
fetch (which can raise, modelled by `Except.error`, or return no data), the
per-game ESPN boxscore oracle, and their NCAA counterparts. -/
structure FetchEnv where
  espn : Except Unit (Option Scoreboard)
  espnBox : String → Option EspnBoxscore
  ncaa : Except Unit (Option NcaaScoreboard)
  ncaaBox : String → Option NcaaBoxscore

/-- Embedding of `DataFetcher._fetch_ncaa_basketball_games`
(src/data_fetcher.py:618-710): a raised upstream error or missing data yields
`[]` via the catch-all handler. -/
def fetchNcaaBasketballGames (env : FetchEnv) (maxGames : Nat) (power : Bool)
    (favs : List String) (favExp : Bool) : List GameRecord :=
  match env.ncaa with
  | .error _ => []
  | .ok none => []
  | .ok (some sb) =>
    match sb.games with
    | none => []
    | some gs => collectCapped (ncaaKeep env.ncaaBox power favs favExp) maxGames gs []

/-- Embedding of `DataFetcher.fetch_live_games` (src/data_fetcher.py:49-130):
unknown league keys are rejected up front, `ncaam` is dispatched to the NCAA
path, and every failure of the ESPN path degrades to `[]` via the handler. -/
def fetchLiveGames (env : FetchEnv) (leagueKey : String) (maxGames : Nat)
    (power : Bool) (favs : List String) (favExp : Bool) : List GameRecord :=
  if ¬ leagueMapKeys.contains leagueKey then []
  else if leagueKey = "ncaam" then fetchNcaaBasketballGames env maxGames power favs favExp
  else
    match env.espn with
    | .error _ => []
    | .ok none => []
    | .ok (some sb) =>
      match sb.events with
      | none => []
      | some evs =>
        match collectLiveEspn (fun e => parseGameEvent env.espnBox e leagueKey favs favExp)
            maxGames evs [] with
        | none => []
        | some games => games

/-- Event that is live (`state = "in"`) but unparseable: its single
competition has no competitors, so it passes the logging block's indexing but
`_parse_game_event` returns `None` and the event is skipped individually. -/
def wLiveBadEvent : Event :=
  ⟨none, some [⟨[]⟩], some ⟨some ⟨some "in", none, none⟩, none, none⟩⟩

/-- Live event whose `competitions` key holds an explicitly empty list: the
unguarded `event.get('competitions', [{}])[0]` at src/data_fetcher.py:107
raises IndexError for it, aborting the whole league fetch. -/
def wAbortEvent : Event :=
  ⟨none, some [], some ⟨some ⟨some "in", none, none⟩, none, none⟩⟩


/-- Event whose status state is `"post"` (not live). -/
def wPostEvent : Event :=
  ⟨none, some [⟨[]⟩], some ⟨some ⟨some "post", none, none⟩, none, none⟩⟩

/-- Well-formed home competitor. -/
def wHomeComp : Competitor := ⟨some "home", some ⟨some "AAA"⟩, some (.vInt 5), []⟩

/-- Well-formed away competitor. -/
def wAwayComp : Competitor := ⟨some "away", some ⟨some "BBB"⟩, some (.vInt 3), []⟩

/-- Well-formed live event that parses to a game record. -/
def wGoodEvent : Event :=
  ⟨none, some [⟨[wHomeComp, wAwayComp]⟩],
   some ⟨some ⟨some "in", some "Q1 5:00", none⟩, some 1, some "5:00"⟩⟩
/-- Scoreboard with one good live event followed by an aborting event. -/
def wSbAbort : Scoreboard := ⟨some [wGoodEvent, wAbortEvent]⟩

/-- Environment serving `wSbAbort`. -/
def wEnvAbort : FetchEnv :=
  ⟨Except.ok (some wSbAbort), fun _ => none, Except.ok none, fun _ => none⟩

/-- Scoreboard with one unparseable live event and one post event (C6). -/
def wSbC6 : Scoreboard := ⟨some [wLiveBadEvent, wPostEvent]⟩

/-- Environment serving `wSbC6`. -/
def wEnvC6 : FetchEnv :=
  ⟨Except.ok (some wSbC6), fun _ => none, Except.ok none, fun _ => none⟩

/-- Scoreboard with ten well-formed live events (C6/C8 witnesses). -/
def wSbTen : Scoreboard := ⟨some (List.replicate 10 wGoodEvent)⟩

/-- Environment serving `wSbTen`. -/
def wEnvTen : FetchEnv :=
  ⟨Except.ok (some wSbTen), fun _ => none, Except.ok none, fun _ => none⟩

/-- Scoreboard with four unparseable live events (C8 counterexample). -/
def wSbC8 : Scoreboard :=
  ⟨some [wLiveBadEvent, wLiveBadEvent, wLiveBadEvent, wLiveBadEvent]⟩

/-- Environment serving `wSbC8`. -/
def wEnvC8 : FetchEnv :=
  ⟨Except.ok (some wSbC8), fun _ => none, Except.ok none, fun _ => none⟩

/-- Environment whose upstream fetches raise (C5 witness). -/
def wEnvErr : FetchEnv :=
  ⟨Except.error (), fun _ => none, Except.error (), fun _ => none⟩

/-- Live event whose home competitor has the non-numeric score `"N/A"` (C7). -/
def wBadScoreEvent : Event :=
  ⟨none, some [⟨[⟨some "home", some ⟨some "AAA"⟩, some (.vStr "N/A"), []⟩, wAwayComp]⟩],
   some ⟨some ⟨some "in", none, none⟩, none, none⟩⟩

/-- Live event whose home competitor has the negative score `-3` (C7). -/
def wNegScoreEvent : Event :=
  ⟨none, some [⟨[⟨some "home", some ⟨some "AAA"⟩, some (.vInt (-3)), []⟩, wAwayComp]⟩],
   some ⟨some ⟨some "in", none, none⟩, none, none⟩⟩

/-- Football boxscore payload whose successful fetch the stub ignores (C2). -/
def wFbBox : EspnBoxscore := ⟨[]⟩

/-- Quarterback athlete row: 20/28 completions, 245 yards, 3 touchdowns
(C2). -/
def wFbAthlete : BAthlete :=
  ⟨some ⟨some "Patrick Mahomes", none⟩, [.vInt 20, .vInt 28, .vInt 245, .vInt 3]⟩

/-- Football home competitor carrying a `passing` section with one athlete
(C2). -/
def wFbHome : Competitor :=
  ⟨some "home", some ⟨some "KC"⟩, some (.vInt 21), [⟨some "passing", some [wFbAthlete]⟩]⟩

/-- Live football event with a game id, so the boxscore path is taken (C2). -/
def wFbEvent : Event :=
  ⟨some "401", some [⟨[wFbHome, wAwayComp]⟩],
   some ⟨some ⟨some "in", some "Q2 3:10", none⟩, some 2, some "3:10"⟩⟩

/-! ### Display loop and league rotation (manager.py) -/

/-- Plugin state observed by `display` (src/manager.py:88-98 and 312-360):
the scroll position, the displayed batch, the pending batch slot with its
ready flag, and the scroll helper's distance-tracking fields.  Python float
positions are modelled as rationals; `α` is the type of one game's data. -/
structure DispState (α : Type) where
  scrollPos : ℚ
  gamesData : Option (List α)
  pendingGamesData : Option (List α)
  pendingDataReady : Bool
  scrollComplete : Bool
  totalDistanceScrolled : ℚ

/-- One tick of `display` (src/manager.py:328-360): the scroll helper moves
the position to `newPos`; a wrap is a backward jump strictly greater than the
display width.  On a wrap with pending data ready, the displayed batch is
replaced by the pending batch, the slot is cleared and the flag dropped (the
re-render resets the scroll position to 0, per the comment at
src/manager.py:351); on a wrap without pending data only the
distance-tracking fields are reset. -/
def displayTick {α : Type} (displayWidth newPos : ℚ) (s : DispState α) : DispState α :=
  if s.scrollPos - newPos > displayWidth then
    if s.pendingDataReady then
      { s with scrollPos := 0
               gamesData := s.pendingGamesData
               pendingGamesData := none
               pendingDataReady := false }
    else
      { s with scrollPos := newPos
               scrollComplete := false
               totalDistanceScrolled := 0 }
  else { s with scrollPos := newPos }

/-- Concrete mid-scroll state for the C3 witness: position 100, displayed
batch `[1, 2]`, a background fetch has completed with pending batch
`[3, 4, 5]`. -/
def wDispMid : DispState Nat := ⟨100, some [1, 2], some [3, 4, 5], true, false, 800⟩

/-- League probed at offset `j` from rotation index `i` (statement-level
helper): offsets advance modulo the rotation length. -/
abbrev probeFrom (rot : List String) (i j : Nat) : String :=
  rot.getD ((i + j) % rot.length) ""

/-- Rotation loop of `_fetch_games` (src/manager.py:236-257): while attempts
remain, advance the index modulo the rotation length, fetch that league, and
return on the first non-empty result.  The result carries the games, the
final rotation index, and the trace of league keys fetched. -/
def rotateLoop {γ : Type} (oracle : String → List γ) (rot : List String) :
    Nat → Nat → (List γ × Nat × List String)
  | idx, 0 => ([], idx, [])
  | idx, fuel + 1 =>
    if (oracle (rot.getD ((idx + 1) % rot.length) "")).isEmpty = false then
      (oracle (rot.getD ((idx + 1) % rot.length) ""), (idx + 1) % rot.length,
       [rot.getD ((idx + 1) % rot.length) ""])
    else
      ((rotateLoop oracle rot ((idx + 1) % rot.length) fuel).1,
       (rotateLoop oracle rot ((idx + 1) % rot.length) fuel).2.1,
       rot.getD ((idx + 1) % rot.length) ""
         :: (rotateLoop oracle rot ((idx + 1) % rot.length) fuel).2.2)

/-- Embedding of `LivePlayerStatsPlugin._fetch_games` (src/manager.py:204-260),
instrumented with the trace of `fetch_live_games` calls: the current league
is tried first; on an empty result the rotation loop runs for up to
`len(rotation)` further attempts.  `oracle` abstracts
`DataFetcher.fetch_live_games` with the configured settings. -/
def fetchGames {γ : Type} (oracle : String → List γ) (rot : List String)
    (idx : Nat) : (List γ × Nat × List String) :=
  if (oracle (rot.getD idx "")).isEmpty = false then
    (oracle (rot.getD idx ""), idx, [rot.getD idx ""])
  else
    ((rotateLoop oracle rot idx rot.length).1,
     (rotateLoop oracle rot idx rot.length).2.1,
     rot.getD idx "" :: (rotateLoop oracle rot idx rot.length).2.2)

/-- Oracle with no live games in any league (C4 counterexample). -/
def oracleEmpty : String → List Nat := fun _ => []

/-- Oracle with live games only in league B (C4 witness). -/
def oracleB : String → List Nat := fun s => if s = "B" then [7, 8] else []

/-- C9: the name-abbreviation helper is idempotent on already-short names
(`abbreviate "LeBron" = "LeBron"`, and generally a short single-part name is
returned unchanged); a two-part name whose last part has length at most 8
yields the last part alone (`"Patrick Mahomes" ↦ "Mahomes"`); a multi-part
name whose last part exceeds 8 characters yields the first initial, a period
and a space, then the last name. -/
theorem claim_C9_abbreviate_name :
    abbreviateName "LeBron" = "LeBron"
    ∧ abbreviateName (abbreviateName "LeBron") = abbreviateName "LeBron"
    ∧ (∀ n : String, splitNameParts n = [n] → n.length ≤ 10 → abbreviateName n = n)
    ∧ (∀ n first last : String, splitNameParts n = [first, last] →
        last.length ≤ 8 → abbreviateName n = last)
    ∧ abbreviateName "Patrick Mahomes" = "Mahomes"
    ∧ (∀ (n : String) (parts : List String), splitNameParts n = parts →
        parts.length ≥ 2 → (parts.getLastD "").length > 8 →
        abbreviateName n =
          String.singleton (strHead (parts.headD "")) ++ ". " ++ parts.getLastD "") := by
  refine ⟨by decide, by decide, ?_, ?_, by decide, ?_⟩
  · intro n h hlen
    unfold abbreviateName
    rw [h]
    simp only [List.length_cons, List.length_nil]
    have h2 : ¬ (1 ≥ 2) := by omega
    have h10 : ¬ (n.length > 10) := by omega
    simp [h2, h10]
  · intro n first last h hlen
    unfold abbreviateName
    rw [h]
    simp [hlen]
  · intro n parts h hlen hlong
    unfold abbreviateName
    rw [h]
    have hfalse : ¬ ((parts.getLastD "").length ≤ 8) := Nat.not_le.mpr hlong
    rw [if_pos hlen, if_neg hfalse]

/-- Witness for C9: the hypotheses of each general conjunct hold at concrete
inputs and the theorem yields the concrete outputs. -/
theorem claim_C9_abbreviate_name_witness :
    abbreviateName "Cher" = "Cher"
    ∧ abbreviateName "Patrick Mahomes" = "Mahomes"
    ∧ abbreviateName "Giannis Antetokounmpo" = "G. Antetokounmpo" := by
  refine ⟨?_, ?_, ?_⟩
  · exact claim_C9_abbreviate_name.2.2.1 "Cher" (by decide) (by decide)
  · exact claim_C9_abbreviate_name.2.2.2.1 "Patrick Mahomes" "Patrick" "Mahomes"
      (by decide) (by decide)
  · have h := claim_C9_abbreviate_name.2.2.2.2.2 "Giannis Antetokounmpo"
      ["Giannis", "Antetokounmpo"] (by decide) (by decide) (by decide)
    simpa using h

theorem updMax_value (m : MaxT) (n : String) (v : Int) :
    (updMax m n v).value = max m.value v := by
  unfold updMax
  rcases le_or_lt v m.value with h | h
  · rw [if_neg (not_lt.mpr h)]
    exact (max_eq_left h).symm
  · rw [if_pos h]
    exact (max_eq_right h.le).symm

theorem runMax_value :
    ∀ (l : List (String × Int)) (m : MaxT),
      (runMax l m).value = l.foldl (fun acc p => max acc p.2) m.value := by
  intro l
  induction l with
  | nil => intro m; rfl
  | cons p rest ih =>
    intro m
    show (runMax rest (updMax m p.1 p.2)).value = _
    rw [ih, List.foldl_cons, updMax_value]

theorem le_foldl_max (l : List (String × Int)) :
    ∀ x : Int, x ≤ l.foldl (fun acc p => max acc p.2) x := by
  induction l with
  | nil => intro x; exact le_refl x
  | cons p rest ih =>
    intro x
    exact le_trans (le_max_left x p.2) (ih (max x p.2))

theorem mem_le_foldl_max (l : List (String × Int)) :
    ∀ (x : Int) (p : String × Int), p ∈ l →
      p.2 ≤ l.foldl (fun acc p => max acc p.2) x := by
  induction l with
  | nil => intro x p hp; exact absurd hp (List.not_mem_nil p)
  | cons q rest ih =>
    intro x p hp
    rcases List.mem_cons.mp hp with h1 | h2
    · rw [h1]
      exact le_trans (le_max_right x q.2) (le_foldl_max rest (max x q.2))
    · exact ih (max x q.2) p h2

/-- Structural characterization of the tracking loop: either nothing beat the
initial state, or the result is the first element that attains the final
maximum (every earlier element is strictly below it). -/
theorem runMax_structure :
    ∀ (l : List (String × Int)) (m : MaxT),
      runMax l m = m ∨
      ∃ pre q post, l = pre ++ q :: post ∧ runMax l m = ⟨some q.1, q.2⟩ ∧
        m.value < q.2 ∧ ∀ p ∈ pre, p.2 < q.2 := by
  intro l
  induction l with
  | nil => intro m; left; rfl
  | cons p rest ih =>
    intro m
    by_cases hv : p.2 > m.value
    · have hupd : updMax m p.1 p.2 = ⟨some p.1, p.2⟩ := if_pos hv
      have hrun : runMax (p :: rest) m = runMax rest ⟨some p.1, p.2⟩ := by
        show runMax rest (updMax m p.1 p.2) = _
        rw [hupd]
      rcases ih ⟨some p.1, p.2⟩ with heq | ⟨pre, q, post, hsplit, hres, hlt, hpre⟩
      · right
        refine ⟨[], p, rest, rfl, by rw [hrun, heq], hv, ?_⟩
        intro r hr
        exact absurd hr (List.not_mem_nil r)
      · right
        refine ⟨p :: pre, q, post, by rw [hsplit]; simp, by rw [hrun, hres], ?_, ?_⟩
        · exact lt_trans hv hlt
        · intro r hr
          rcases List.mem_cons.mp hr with h1 | h2
          · rw [h1]; exact hlt
          · exact hpre r h2
    · have hupd : updMax m p.1 p.2 = m := if_neg hv
      have hrun : runMax (p :: rest) m = runMax rest m := by
        show runMax rest (updMax m p.1 p.2) = _
        rw [hupd]
      rcases ih m with heq | ⟨pre, q, post, hsplit, hres, hlt, hpre⟩
      · left; rw [hrun, heq]
      · right
        refine ⟨p :: pre, q, post, by rw [hsplit]; simp, by rw [hrun, hres], hlt, ?_⟩
        intro r hr
        rcases List.mem_cons.mp hr with h1 | h2
        · rw [h1]
          push_neg at hv
          exact lt_of_le_of_lt hv hlt
        · exact hpre r h2

/-- When every surviving value is non-positive, the tracker never moves. -/
theorem runMax_nonpos (pairs : List (String × Int))
    (h : ∀ p ∈ pairs, p.2 ≤ 0) : runMax pairs initMax = initMax := by
  rcases runMax_structure pairs initMax with heq | ⟨pre, q, post, hsplit, hres, hlt, hpre⟩
  · exact heq
  · exfalso
    have hq : q ∈ pairs := by
      rw [hsplit]
      exact List.mem_append.mpr (Or.inr (List.mem_cons_self q post))
    have h1 := h q hq
    have h2 : (0 : Int) < q.2 := hlt
    omega

theorem maxToCat_runMax_firstMax (pairs : List (String × Int)) (l : List BEntry)
    (h : maxToCat (runMax pairs initMax) = some l) : firstMaxLeader pairs l := by
  rcases runMax_structure pairs initMax with heq | ⟨pre, q, post, hsplit, hres, hlt, hpre⟩
  · rw [heq] at h
    simp [maxToCat, initMax] at h
  · rw [hres] at h
    have hmc : maxToCat ⟨some q.1, q.2⟩
        = if q.1 ≠ "" then some [⟨q.1, q.2⟩] else none := rfl
    rw [hmc] at h
    by_cases hnm : q.1 ≠ ""
    · rw [if_pos hnm] at h
      have hl : l = [⟨q.1, q.2⟩] := by
        injection h with h2
        exact h2.symm
      refine ⟨pre, q, post, hsplit, hl, hlt, hpre, ?_⟩
      intro p hp
      have hval : (runMax pairs initMax).value = q.2 := by rw [hres]
      have hmax := runMax_value pairs initMax
      rw [hval] at hmax
      have := mem_le_foldl_max pairs initMax.value p hp
      rw [← hmax] at this
      exact this
    · rw [if_neg hnm] at h
      exact absurd h (by simp)

/-- Decomposition of the five-tracker boxscore loop into five independent
tracking passes over the surviving (name, value) pairs. -/
theorem trackAthletes_decomp (idx : StatIdx) (expanded : Bool) :
    ∀ (aths : List BAthlete) (st : Max5),
      aths.foldl (trackStep idx expanded) st =
        ⟨runMax (pairsOf idx Stat5.pts aths) st.pts,
         runMax (pairsOf idx Stat5.reb aths) st.reb,
         runMax (pairsOf idx Stat5.ast aths) st.ast,
         if expanded then runMax (pairsOf idx Stat5.stl aths) st.stl else st.stl,
         if expanded then runMax (pairsOf idx Stat5.blk aths) st.blk else st.blk⟩ := by
  intro aths
  induction aths with
  | nil =>
    intro st
    simp [pairsOf, runMax, ite_self]
  | cons a rest ih =>
    intro st
    rw [List.foldl_cons]
    rw [ih (trackStep idx expanded st a)]
    cases hp : parseAthleteStats idx a with
    | none =>
      have hstep : trackStep idx expanded st a = st := by
        unfold trackStep
        rw [hp]
      have hpair : ∀ proj : Stat5 → Int,
          pairsOf idx proj (a :: rest) = pairsOf idx proj rest := by
        intro proj
        simp [pairsOf, hp]
      rw [hstep, hpair Stat5.pts, hpair Stat5.reb, hpair Stat5.ast, hpair Stat5.stl,
        hpair Stat5.blk]
    | some q =>
      have hstep : trackStep idx expanded st a =
          { pts := updMax st.pts (athleteName a) q.pts
            reb := updMax st.reb (athleteName a) q.reb
            ast := updMax st.ast (athleteName a) q.ast
            stl := if expanded then updMax st.stl (athleteName a) q.stl else st.stl
            blk := if expanded then updMax st.blk (athleteName a) q.blk else st.blk } := by
        unfold trackStep
        rw [hp]
      have hpair : ∀ proj : Stat5 → Int,
          pairsOf idx proj (a :: rest) = (athleteName a, proj q) :: pairsOf idx proj rest := by
        intro proj
        simp [pairsOf, hp]
      rw [hstep]
      rw [hpair Stat5.pts, hpair Stat5.reb, hpair Stat5.ast, hpair Stat5.stl, hpair Stat5.blk]
      cases expanded <;> simp [runMax]

theorem catPairs_eq_pairsOf (g : StatsGroup) (proj : Stat5 → Int) :
    catPairs g proj = pairsOf (findStatIdx g) proj g.athletes := rfl

theorem trackAthletes_pts (idx : StatIdx) (expanded : Bool) (aths : List BAthlete) :
    (trackAthletes idx expanded aths).pts = runMax (pairsOf idx Stat5.pts aths) initMax := by
  unfold trackAthletes
  rw [trackAthletes_decomp idx expanded aths ⟨initMax, initMax, initMax, initMax, initMax⟩]

theorem trackAthletes_reb (idx : StatIdx) (expanded : Bool) (aths : List BAthlete) :
    (trackAthletes idx expanded aths).reb = runMax (pairsOf idx Stat5.reb aths) initMax := by
  unfold trackAthletes
  rw [trackAthletes_decomp idx expanded aths ⟨initMax, initMax, initMax, initMax, initMax⟩]

theorem trackAthletes_ast (idx : StatIdx) (expanded : Bool) (aths : List BAthlete) :
    (trackAthletes idx expanded aths).ast = runMax (pairsOf idx Stat5.ast aths) initMax := by
  unfold trackAthletes
  rw [trackAthletes_decomp idx expanded aths ⟨initMax, initMax, initMax, initMax, initMax⟩]

theorem trackAthletes_stl (idx : StatIdx) (aths : List BAthlete) :
    (trackAthletes idx true aths).stl = runMax (pairsOf idx Stat5.stl aths) initMax := by
  unfold trackAthletes
  rw [trackAthletes_decomp idx true aths ⟨initMax, initMax, initMax, initMax, initMax⟩]
  simp

theorem trackAthletes_blk (idx : StatIdx) (aths : List BAthlete) :
    (trackAthletes idx true aths).blk = runMax (pairsOf idx Stat5.blk aths) initMax := by
  unfold trackAthletes
  rw [trackAthletes_decomp idx true aths ⟨initMax, initMax, initMax, initMax, initMax⟩]
  simp

/-- C10: the ESPN-path boxscore basketball extraction returns at most one
leader per category: each present category is exactly a one-element list, and
the leader is the first athlete (in upstream iteration order) attaining the
maximum value of that stat, earlier ties winning via the strict greater-than
comparison — regardless of whether expanded stats are requested (STL/BLK are
simply absent when not expanded). -/
theorem claim_C10_boxscore_single_leader (box : EspnBoxscore) (teamAbbr : String)
    (expanded : Bool) (L : BBLeaders)
    (h : extractBoxscoreBasketballLeaders box teamAbbr expanded = some L) :
    ∃ g, teamStatsGroup box teamAbbr = some g ∧
      (∀ l, L.pts = some l → firstMaxLeader (catPairs g Stat5.pts) l) ∧
      (∀ l, L.reb = some l → firstMaxLeader (catPairs g Stat5.reb) l) ∧
      (∀ l, L.ast = some l → firstMaxLeader (catPairs g Stat5.ast) l) ∧
      (∀ l, L.stl = some l → expanded = true ∧ firstMaxLeader (catPairs g Stat5.stl) l) ∧
      (∀ l, L.blk = some l → expanded = true ∧ firstMaxLeader (catPairs g Stat5.blk) l) := by
  unfold extractBoxscoreBasketballLeaders at h
  split at h
  · exact absurd h (by simp)
  · rename_i td hfind
    split at h
    · exact absurd h (by simp)
    · rename_i g rest hstats
      by_cases hath : g.athletes = []
      · rw [if_pos hath] at h
        exact absurd h (by simp)
      · rw [if_neg hath] at h
        split at h
        · exact absurd h (by simp)
        · injection h with h2
          subst h2
          refine ⟨g, ?_, ?_, ?_, ?_, ?_, ?_⟩
          · unfold teamStatsGroup
            rw [hfind]
            show td.statistics.head? = some g
            rw [hstats]
            rfl
          · intro l hl
            simp only [assembleBBLeaders] at hl
            rw [trackAthletes_pts, ← catPairs_eq_pairsOf] at hl
            exact maxToCat_runMax_firstMax _ _ hl
          · intro l hl
            simp only [assembleBBLeaders] at hl
            rw [trackAthletes_reb, ← catPairs_eq_pairsOf] at hl
            exact maxToCat_runMax_firstMax _ _ hl
          · intro l hl
            simp only [assembleBBLeaders] at hl
            rw [trackAthletes_ast, ← catPairs_eq_pairsOf] at hl
            exact maxToCat_runMax_firstMax _ _ hl
          · intro l hl
            simp only [assembleBBLeaders] at hl
            cases expanded with
            | false => simp at hl
            | true =>
              simp only [if_true] at hl
              rw [trackAthletes_stl, ← catPairs_eq_pairsOf] at hl
              exact ⟨rfl, maxToCat_runMax_firstMax _ _ hl⟩
          · intro l hl
            simp only [assembleBBLeaders] at hl
            cases expanded with
            | false => simp at hl
            | true =>
              simp only [if_true] at hl
              rw [trackAthletes_blk, ← catPairs_eq_pairsOf] at hl
              exact ⟨rfl, maxToCat_runMax_firstMax _ _ hl⟩

/-- Witness for C10: the extraction hypothesis holds on a concrete boxscore
and the theorem applies there. -/
theorem claim_C10_boxscore_single_leader_witness :
    extractBoxscoreBasketballLeaders wBoxC10 "LAL" false = some wLdrC10 ∧
    (∃ g, teamStatsGroup wBoxC10 "LAL" = some g ∧
      (∀ l, wLdrC10.pts = some l → firstMaxLeader (catPairs g Stat5.pts) l) ∧
      (∀ l, wLdrC10.reb = some l → firstMaxLeader (catPairs g Stat5.reb) l) ∧
      (∀ l, wLdrC10.ast = some l → firstMaxLeader (catPairs g Stat5.ast) l) ∧
      (∀ l, wLdrC10.stl = some l → false = true ∧ firstMaxLeader (catPairs g Stat5.stl) l) ∧
      (∀ l, wLdrC10.blk = some l → false = true ∧ firstMaxLeader (catPairs g Stat5.blk) l)) :=
  ⟨by decide, claim_C10_boxscore_single_leader wBoxC10 "LAL" false wLdrC10 (by decide)⟩

/-! ### C1: positivity and absence of leader-set categories -/

theorem fallback_foldl_eq_runMax (statIndex : Nat) :
    ∀ (aths : List BAthlete) (st : MaxT),
      aths.foldl (fallbackCatStep statIndex) st
        = runMax (fallbackCatPairs aths statIndex) st := by
  intro aths
  induction aths with
  | nil => intro st; rfl
  | cons a rest ih =>
    intro st
    rw [List.foldl_cons]
    cases hg : a.stats.get? statIndex with
    | none =>
      have hstep : fallbackCatStep statIndex st a = st := by
        unfold fallbackCatStep
        rw [hg]
      have hfa : ((a.stats.get? statIndex).bind pyToInt).map
          (fun n => (athleteName a, n)) = none := by
        rw [hg]
        rfl
      have hpair : fallbackCatPairs (a :: rest) statIndex
          = fallbackCatPairs rest statIndex := by
        unfold fallbackCatPairs
        rw [List.filterMap_cons, hfa]
      rw [hstep, hpair]
      exact ih st
    | some v =>
      cases hi : pyToInt v with
      | none =>
        have hstep : fallbackCatStep statIndex st a = st := by
          unfold fallbackCatStep
          rw [hg]
          show (match pyToInt v with
            | none => st
            | some n => updMax st (athleteName a) n) = st
          rw [hi]
        have hfa : ((a.stats.get? statIndex).bind pyToInt).map
            (fun n => (athleteName a, n)) = none := by
          rw [hg]
          show (pyToInt v).map (fun n => (athleteName a, n)) = none
          rw [hi]
          rfl
        have hpair : fallbackCatPairs (a :: rest) statIndex
            = fallbackCatPairs rest statIndex := by
          unfold fallbackCatPairs
          rw [List.filterMap_cons, hfa]
        rw [hstep, hpair]
        exact ih st
      | some n =>
        have hstep : fallbackCatStep statIndex st a = updMax st (athleteName a) n := by
          unfold fallbackCatStep
          rw [hg]
          show (match pyToInt v with
            | none => st
            | some n => updMax st (athleteName a) n) = updMax st (athleteName a) n
          rw [hi]
        have hfa : ((a.stats.get? statIndex).bind pyToInt).map
            (fun n => (athleteName a, n)) = some (athleteName a, n) := by
          rw [hg]
          show (pyToInt v).map (fun n => (athleteName a, n)) = some (athleteName a, n)
          rw [hi]
          rfl
        have hpair : fallbackCatPairs (a :: rest) statIndex
            = (athleteName a, n) :: fallbackCatPairs rest statIndex := by
          unfold fallbackCatPairs
          rw [List.filterMap_cons, hfa]
        rw [hstep, hpair]
        show _ = runMax (fallbackCatPairs rest statIndex) (updMax st (athleteName a) n)
        exact ih (updMax st (athleteName a) n)

theorem catAllPos_maxToCat (pairs : List (String × Int)) :
    catAllPos pairs (maxToCat (runMax pairs initMax)) := by
  rcases runMax_structure pairs initMax with heq | ⟨pre, q, post, hsplit, hres, hlt, hpre⟩
  · rw [heq]
    constructor
    · intro l hl
      exact absurd hl (by simp [maxToCat, initMax])
    · intro _
      rfl
  · rw [hres]
    have hmc : maxToCat ⟨some q.1, q.2⟩
        = if q.1 ≠ "" then some [⟨q.1, q.2⟩] else none := rfl
    rw [hmc]
    constructor
    · intro l hl
      by_cases hnm : q.1 ≠ ""
      · rw [if_pos hnm] at hl
        injection hl with h2
        rw [← h2]
        refine ⟨by simp, ?_⟩
        intro e he
        simp only [List.mem_singleton] at he
        rw [he]
        exact hlt
      · rw [if_neg hnm] at hl
        exact absurd hl (by simp)
    · intro hall
      exfalso
      have hq : q ∈ pairs := by
        rw [hsplit]
        exact List.mem_append.mpr (Or.inr (List.mem_cons_self q post))
      have h1 := hall q hq
      have h2 : (0 : Int) < q.2 := hlt
      omega

theorem catAllPos_none (pairs : List (String × Int)) : catAllPos pairs none :=
  ⟨fun _ hl => absurd hl (by simp), fun _ => rfl⟩

theorem catHeadPos_none (entries : List BEntry) : catHeadPos entries none :=
  ⟨fun _ hl => absurd hl (by simp), fun _ => rfl⟩

theorem catOkSingle_fallback (aths : List BAthlete) (i : Nat) :
    catOkSingle (fallbackCatPairs aths i) (fallbackCatLeader aths i) := by
  unfold fallbackCatLeader
  rw [fallback_foldl_eq_runMax i aths initMax]
  constructor
  · intro e he
    rcases hrm : runMax (fallbackCatPairs aths i) initMax with ⟨nm, v⟩
    rw [hrm] at he
    cases nm with
    | none => exact absurd he (by simp)
    | some nm2 =>
      simp only at he
      by_cases hc : nm2 ≠ "" ∧ v > 0
      · rw [if_pos hc] at he
        injection he with h2
        rw [← h2]
        exact hc.2
      · rw [if_neg hc] at he
        exact absurd he (by simp)
  · intro hall
    rw [runMax_nonpos _ hall]
    rfl

theorem mem_insDesc (e x : BEntry) :
    ∀ l, x ∈ insDesc e l ↔ x = e ∨ x ∈ l := by
  intro l
  induction l with
  | nil => simp [insDesc]
  | cons y ys ih =>
    unfold insDesc
    by_cases h : e.value ≤ y.value
    · rw [if_pos h]
      simp only [List.mem_cons, ih]
      tauto
    · rw [if_neg h]
      simp only [List.mem_cons]

theorem mem_sortDesc_aux (x : BEntry) :
    ∀ (l acc : List BEntry),
      x ∈ l.foldl (fun acc e => insDesc e acc) acc ↔ x ∈ acc ∨ x ∈ l := by
  intro l
  induction l with
  | nil => intro acc; simp
  | cons e es ih =>
    intro acc
    rw [List.foldl_cons, ih (insDesc e acc), mem_insDesc]
    simp only [List.mem_cons]
    tauto

theorem mem_sortDesc (x : BEntry) (l : List BEntry) : x ∈ sortDesc l ↔ x ∈ l := by
  unfold sortDesc
  rw [mem_sortDesc_aux]
  simp

theorem catHeadPos_nCat (l : List BEntry) (n : Nat) (hn : 1 ≤ n) :
    catHeadPos l (nCatLeaders l n) := by
  unfold nCatLeaders
  cases hs : sortDesc l with
  | nil =>
    show catHeadPos l none
    exact ⟨fun _ hl => absurd hl (by simp), fun _ => rfl⟩
  | cons q rest =>
    show catHeadPos l (if q.value > 0 then some ((q :: rest).take n) else none)
    by_cases hq : q.value > 0
    · rw [if_pos hq]
      constructor
      · intro out hout
        injection hout with h2
        obtain ⟨m, hm⟩ : ∃ m, n = m + 1 := ⟨n - 1, by omega⟩
        refine ⟨q, rest.take m, ?_, hq⟩
        rw [← h2, hm]
        rfl
      · intro hall
        exfalso
        have hqm : q ∈ sortDesc l := by
          rw [hs]
          exact List.mem_cons_self q rest
        have hql : q ∈ l := (mem_sortDesc q l).mp hqm
        have := hall q hql
        omega
    · rw [if_neg hq]
      exact ⟨fun _ hl => absurd hl (by simp), fun _ => rfl⟩

/-- C1 (amended): in every leader-extraction path a category with no
qualifying candidate (all surviving values zero or negative, or data missing)
is absent from the mapping, and a present category is non-empty with a
positive leading value.  In the ESPN boxscore and scoreboard-fallback paths
every returned entry has value > 0; in the NCAA path only the first (top)
entry of each present category is guaranteed positive — the top-N truncation
may retain trailing entries with value 0. -/
theorem claim_C1_leader_positive_amended :
    (∀ (box : EspnBoxscore) (abbr : String) (expanded : Bool) (L : BBLeaders),
      extractBoxscoreBasketballLeaders box abbr expanded = some L →
      ∃ g, teamStatsGroup box abbr = some g ∧
        catAllPos (catPairs g Stat5.pts) L.pts ∧
        catAllPos (catPairs g Stat5.reb) L.reb ∧
        catAllPos (catPairs g Stat5.ast) L.ast ∧
        catAllPos (catPairs g Stat5.stl) L.stl ∧
        catAllPos (catPairs g Stat5.blk) L.blk)
    ∧ (∀ (c : Competitor) (L : BBFallLeaders),
      extractBasketballLeaders c = some L →
      ∃ aths, fallAthletes c = some aths ∧
        catOkSingle (fallbackCatPairs aths 15) L.pts ∧
        catOkSingle (fallbackCatPairs aths 10) L.reb ∧
        catOkSingle (fallbackCatPairs aths 11) L.ast ∧
        catOkSingle (fallbackCatPairs aths 13) L.stl ∧
        catOkSingle (fallbackCatPairs aths 14) L.blk)
    ∧ (∀ (box : NcaaBoxscore) (isHome expanded : Bool) (L : BBLeaders),
      extractNcaaBasketballLeaders box isHome expanded = some L →
      ∃ ls, ncaaLists box isHome expanded = some ls ∧
        catHeadPos ls.pts L.pts ∧
        catHeadPos ls.reb L.reb ∧
        catHeadPos ls.ast L.ast ∧
        catHeadPos ls.stl L.stl ∧
        catHeadPos ls.blk L.blk) := by
  refine ⟨?_, ?_, ?_⟩
  · intro box abbr expanded L h
    unfold extractBoxscoreBasketballLeaders at h
    split at h
    · exact absurd h (by simp)
    · rename_i td hfind
      split at h
      · exact absurd h (by simp)
      · rename_i g rest hstats
        by_cases hath : g.athletes = []
        · rw [if_pos hath] at h
          exact absurd h (by simp)
        · rw [if_neg hath] at h
          split at h
          · exact absurd h (by simp)
          · injection h with h2
            subst h2
            refine ⟨g, ?_, ?_, ?_, ?_, ?_, ?_⟩
            · unfold teamStatsGroup
              rw [hfind]
              show td.statistics.head? = some g
              rw [hstats]
              rfl
            · show catAllPos _ (maxToCat (trackAthletes (findStatIdx g) expanded g.athletes).pts)
              rw [trackAthletes_pts, catPairs_eq_pairsOf]
              exact catAllPos_maxToCat _
            · show catAllPos _ (maxToCat (trackAthletes (findStatIdx g) expanded g.athletes).reb)
              rw [trackAthletes_reb, catPairs_eq_pairsOf]
              exact catAllPos_maxToCat _
            · show catAllPos _ (maxToCat (trackAthletes (findStatIdx g) expanded g.athletes).ast)
              rw [trackAthletes_ast, catPairs_eq_pairsOf]
              exact catAllPos_maxToCat _
            · cases expanded with
              | false => exact catAllPos_none _
              | true =>
                show catAllPos _
                  (maxToCat (trackAthletes (findStatIdx g) true g.athletes).stl)
                rw [trackAthletes_stl, catPairs_eq_pairsOf]
                exact catAllPos_maxToCat _
            · cases expanded with
              | false => exact catAllPos_none _
              | true =>
                show catAllPos _
                  (maxToCat (trackAthletes (findStatIdx g) true g.athletes).blk)
                rw [trackAthletes_blk, catPairs_eq_pairsOf]
                exact catAllPos_maxToCat _
  · intro c L h
    unfold extractBasketballLeaders at h
    by_cases hempty : c.statistics = []
    · rw [if_pos hempty] at h
      exact absurd h (by simp)
    · rw [if_neg hempty] at h
      split at h
      · exact absurd h (by simp)
      · rename_i sec hfindsec
        split at h
        · exact absurd h (by simp)
        · rename_i aths hsec
          by_cases hath : aths = []
          · rw [if_pos hath] at h
            exact absurd h (by simp)
          · rw [if_neg hath] at h
            split at h
            · exact absurd h (by simp)
            · injection h with h2
              subst h2
              refine ⟨aths, ?_, catOkSingle_fallback aths 15, catOkSingle_fallback aths 10,
                catOkSingle_fallback aths 11, catOkSingle_fallback aths 13,
                catOkSingle_fallback aths 14⟩
              unfold fallAthletes
              rw [hfindsec]
              exact hsec
  · intro box isHome expanded L h
    unfold extractNcaaBasketballLeaders at h
    by_cases hempty : box.teams = [] ∨ box.teamBoxscore = []
    · rw [if_pos hempty] at h
      exact absurd h (by simp)
    · rw [if_neg hempty] at h
      split at h
      · exact absurd h (by simp)
      · rename_i ti hidx
        split at h
        · exact absurd h (by simp)
        · rename_i td hget
          by_cases hps : td.playerStats = []
          · rw [if_pos hps] at h
            exact absurd h (by simp)
          · rw [if_neg hps] at h
            split at h
            · exact absurd h (by simp)
            · injection h with h2
              subst h2
              refine ⟨td.playerStats.foldl (nCollectStep expanded) ⟨[], [], [], [], []⟩,
                ?_, ?_, ?_, ?_, ?_, ?_⟩
              · unfold ncaaLists
                rw [hidx]
                show (box.teamBoxscore.get? ti).map _ = _
                rw [hget]
                rfl
              · exact catHeadPos_nCat _ _ (by cases expanded <;> simp)
              · exact catHeadPos_nCat _ _ (by cases expanded <;> simp)
              · exact catHeadPos_nCat _ _ (by cases expanded <;> simp)
              · cases expanded with
                | false => exact catHeadPos_none _
                | true => exact catHeadPos_nCat _ _ (by simp)
              · cases expanded with
                | false => exact catHeadPos_none _
                | true => exact catHeadPos_nCat _ _ (by simp)

/-- Counterexample for C1 as stated: on a concrete NCAA boxscore the present
PTS category contains an entry with value 0 (the top-2 truncation keeps a
zero-value trailing player), so "every entry in every present category list
has value > 0" is false. -/
theorem claim_C1_ncaa_zero_entry_counterexample :
    extractNcaaBasketballLeaders wNcaaCex true false = some wNcaaL
    ∧ ¬ (∀ L, extractNcaaBasketballLeaders wNcaaCex true false = some L →
          ∀ l, L.pts = some l → ∀ e ∈ l, 0 < e.value) := by
  constructor
  · decide
  · intro hclaim
    exact absurd
      (hclaim wNcaaL (by decide) [⟨"Ann Alpha", 10⟩, ⟨"Bea Beta", 0⟩] (by decide)
        ⟨"Bea Beta", 0⟩ (by decide))
      (by decide)

/-- Witness for C1 (amended): the extraction hypotheses hold on concrete
inputs for each of the three paths and the theorem applies there. -/
theorem claim_C1_leader_positive_amended_witness :
    (∃ g, teamStatsGroup wBoxC10 "LAL" = some g ∧
      catAllPos (catPairs g Stat5.pts) wLdrC10.pts ∧
      catAllPos (catPairs g Stat5.reb) wLdrC10.reb ∧
      catAllPos (catPairs g Stat5.ast) wLdrC10.ast ∧
      catAllPos (catPairs g Stat5.stl) wLdrC10.stl ∧
      catAllPos (catPairs g Stat5.blk) wLdrC10.blk)
    ∧ (∃ aths, fallAthletes wCompFall = some aths ∧
      catOkSingle (fallbackCatPairs aths 15) wFallL.pts ∧
      catOkSingle (fallbackCatPairs aths 10) wFallL.reb ∧
      catOkSingle (fallbackCatPairs aths 11) wFallL.ast ∧
      catOkSingle (fallbackCatPairs aths 13) wFallL.stl ∧
      catOkSingle (fallbackCatPairs aths 14) wFallL.blk)
    ∧ (∃ ls, ncaaLists wNcaaCex true false = some ls ∧
      catHeadPos ls.pts wNcaaL.pts ∧
      catHeadPos ls.reb wNcaaL.reb ∧
      catHeadPos ls.ast wNcaaL.ast ∧
      catHeadPos ls.stl wNcaaL.stl ∧
      catHeadPos ls.blk wNcaaL.blk) :=
  ⟨claim_C1_leader_positive_amended.1 wBoxC10 "LAL" false wLdrC10 (by decide),
   claim_C1_leader_positive_amended.2.1 wCompFall wFallL (by decide),
   claim_C1_leader_positive_amended.2.2 wNcaaCex true false wNcaaL (by decide)⟩

/-! ### Collection loop characterization and fetch-level claims -/

theorem collectCapped_eq {α β : Type} (keep : α → Option β) (maxItems : Nat) :
    ∀ (xs : List α) (acc : List β),
      collectCapped keep maxItems xs acc
        = acc ++ (xs.filterMap keep).take (maxItems - acc.length) := by
  intro xs
  induction xs with
  | nil => intro acc; simp [collectCapped]
  | cons x xs2 ih =>
    intro acc
    unfold collectCapped
    by_cases hcap : acc.length ≥ maxItems
    · rw [if_pos hcap]
      have hz : maxItems - acc.length = 0 := by omega
      rw [hz, List.take_zero, List.append_nil]
    · rw [if_neg hcap]
      cases hk : keep x with
      | none =>
        rw [List.filterMap_cons, hk]
        exact ih acc
      | some g =>
        rw [List.filterMap_cons, hk]
        show collectCapped keep maxItems xs2 (acc ++ [g])
          = acc ++ List.take (maxItems - acc.length) (g :: List.filterMap keep xs2)
        rw [ih (acc ++ [g])]
        have hlen : (acc ++ [g]).length = acc.length + 1 := by simp
        have hsub : maxItems - acc.length = (maxItems - (acc.length + 1)) + 1 := by
          push_neg at hcap
          omega
        rw [hlen, hsub, List.take_succ_cons]
        simp

theorem eventCompetition_eq_none_iff (e : Event) :
    eventCompetition e = none ↔ e.competitions = some [] := by
  unfold eventCompetition
  cases he : e.competitions with
  | none => simp
  | some l => cases l <;> simp

theorem collectLiveEspn_no_abort (parse : Event → Option GameRecord) (maxGames : Nat) :
    ∀ (evs : List Event) (acc : List GameRecord),
      (∀ e ∈ evs, e.competitions ≠ some []) →
      collectLiveEspn parse maxGames evs acc
        = some (acc ++ (evs.filterMap (liveParse parse)).take (maxGames - acc.length)) := by
  intro evs
  induction evs with
  | nil =>
    intro acc _
    simp [collectLiveEspn]
  | cons e es ih =>
    intro acc hclean
    unfold collectLiveEspn
    by_cases hcap : acc.length ≥ maxGames
    · rw [if_pos hcap]
      have hz : maxGames - acc.length = 0 := by omega
      rw [hz, List.take_zero, List.append_nil]
    · rw [if_neg hcap]
      have hnb : e.competitions ≠ some [] := hclean e (List.mem_cons_self e es)
      cases hoc : eventCompetition e with
      | none => exact absurd ((eventCompetition_eq_none_iff e).mp hoc) hnb
      | some c =>
        cases hk : liveParse parse e with
        | none =>
          rw [List.filterMap_cons, hk]
          exact ih acc (fun x hx => hclean x (List.mem_cons_of_mem e hx))
        | some g =>
          rw [List.filterMap_cons, hk]
          show collectLiveEspn parse maxGames es (acc ++ [g])
            = some (acc ++ List.take (maxGames - acc.length)
                (g :: List.filterMap (liveParse parse) es))
          rw [ih (acc ++ [g]) (fun x hx => hclean x (List.mem_cons_of_mem e hx))]
          have hlen : (acc ++ [g]).length = acc.length + 1 := by simp
          have hsub : maxGames - acc.length = (maxGames - (acc.length + 1)) + 1 := by
            push_neg at hcap
            omega
          rw [hlen, hsub, List.take_succ_cons]
          simp

theorem collectLiveEspn_abort (parse : Event → Option GameRecord) (maxGames : Nat) :
    ∀ (pre : List Event) (e : Event) (rest : List Event) (acc : List GameRecord),
      (∀ x ∈ pre, x.competitions ≠ some []) →
      e.competitions = some [] →
      acc.length + (pre.filterMap (liveParse parse)).length < maxGames →
      collectLiveEspn parse maxGames (pre ++ e :: rest) acc = none := by
  intro pre
  induction pre with
  | nil =>
    intro e rest acc _ hbomb hlt
    show collectLiveEspn parse maxGames (e :: rest) acc = none
    unfold collectLiveEspn
    have hcap : ¬ acc.length ≥ maxGames := by
      simp at hlt
      omega
    rw [if_neg hcap]
    rw [(eventCompetition_eq_none_iff e).mpr hbomb]
  | cons x pre2 ih =>
    intro e rest acc hclean hbomb hlt
    show collectLiveEspn parse maxGames (x :: (pre2 ++ e :: rest)) acc = none
    unfold collectLiveEspn
    have hcap : ¬ acc.length ≥ maxGames := by omega
    rw [if_neg hcap]
    have hnx : x.competitions ≠ some [] := hclean x (List.mem_cons_self x pre2)
    cases hoc : eventCompetition x with
    | none => exact absurd ((eventCompetition_eq_none_iff x).mp hoc) hnx
    | some c =>
      cases hk : liveParse parse x with
      | none =>
        have hfm : List.filterMap (liveParse parse) (x :: pre2)
            = List.filterMap (liveParse parse) pre2 := by
          rw [List.filterMap_cons, hk]
        rw [hfm] at hlt
        exact ih e rest acc (fun y hy => hclean y (List.mem_cons_of_mem x hy)) hbomb hlt
      | some g =>
        have hfm : List.filterMap (liveParse parse) (x :: pre2)
            = g :: List.filterMap (liveParse parse) pre2 := by
          rw [List.filterMap_cons, hk]
        rw [hfm] at hlt
        have hlt2 : (acc ++ [g]).length
            + (pre2.filterMap (liveParse parse)).length < maxGames := by
          simp only [List.length_append, List.length_singleton]
          simp only [List.length_cons] at hlt
          omega
        exact ih e rest (acc ++ [g]) (fun y hy => hclean y (List.mem_cons_of_mem x hy))
          hbomb hlt2

theorem fetchLiveGames_espn (env : FetchEnv) (leagueKey : String) (maxGames : Nat)
    (power : Bool) (favs : List String) (favExp : Bool) (sb : Scoreboard)
    (evs : List Event)
    (hkey : leagueKey = "nba" ∨ leagueKey = "nfl" ∨ leagueKey = "ncaaf")
    (hesp : env.espn = Except.ok (some sb)) (hevs : sb.events = some evs)
    (hclean : ∀ e ∈ evs, e.competitions ≠ some []) :
    fetchLiveGames env leagueKey maxGames power favs favExp
      = (evs.filterMap (liveParse
          (fun e => parseGameEvent env.espnBox e leagueKey favs favExp))).take maxGames := by
  have hmem : leagueMapKeys.contains leagueKey = true := by
    rcases hkey with h | h | h <;> subst h <;> decide
  have hne : leagueKey ≠ "ncaam" := by
    rcases hkey with h | h | h <;> subst h <;> decide
  unfold fetchLiveGames
  rw [hmem]
  rw [if_neg (by simp)]
  rw [if_neg hne]
  rw [hesp]
  show (match sb.events with
       | none => ([] : List GameRecord)
       | some evs2 =>
         match collectLiveEspn
             (fun e => parseGameEvent env.espnBox e leagueKey favs favExp)
             maxGames evs2 [] with
         | none => []
         | some games => games) = _
  rw [hevs]
  show (match collectLiveEspn
       (fun e => parseGameEvent env.espnBox e leagueKey favs favExp)
       maxGames evs [] with
     | none => ([] : List GameRecord)
     | some games => games) = _
  rw [collectLiveEspn_no_abort _ maxGames evs [] hclean]
  simp

theorem fetchLiveGames_espn_abort (env : FetchEnv) (leagueKey : String)
    (maxGames : Nat) (power : Bool) (favs : List String) (favExp : Bool)
    (sb : Scoreboard) (pre : List Event) (e : Event) (rest : List Event)
    (hkey : leagueKey = "nba" ∨ leagueKey = "nfl" ∨ leagueKey = "ncaaf")
    (hesp : env.espn = Except.ok (some sb))
    (hevs : sb.events = some (pre ++ e :: rest))
    (hclean : ∀ x ∈ pre, x.competitions ≠ some [])
    (hbomb : e.competitions = some [])
    (hcap : (pre.filterMap (liveParse
        (fun x => parseGameEvent env.espnBox x leagueKey favs favExp))).length < maxGames) :
    fetchLiveGames env leagueKey maxGames power favs favExp = [] := by
  have hmem : leagueMapKeys.contains leagueKey = true := by
    rcases hkey with h | h | h <;> subst h <;> decide
  have hne : leagueKey ≠ "ncaam" := by
    rcases hkey with h | h | h <;> subst h <;> decide
  unfold fetchLiveGames
  rw [hmem]
  rw [if_neg (by simp)]
  rw [if_neg hne]
  rw [hesp]
  show (match sb.events with
       | none => ([] : List GameRecord)
       | some evs2 =>
         match collectLiveEspn
             (fun e2 => parseGameEvent env.espnBox e2 leagueKey favs favExp)
             maxGames evs2 [] with
         | none => []
         | some games => games) = _
  rw [hevs]
  show (match collectLiveEspn
       (fun e2 => parseGameEvent env.espnBox e2 leagueKey favs favExp)
       maxGames (pre ++ e :: rest) [] with
     | none => ([] : List GameRecord)
     | some games => games) = _
  rw [collectLiveEspn_abort _ maxGames pre e rest [] hclean hbomb (by simpa using hcap)]

theorem fetchLiveGames_ncaam (env : FetchEnv) (maxGames : Nat) (power : Bool)
    (favs : List String) (favExp : Bool) (sb : NcaaScoreboard)
    (ws : List NcaaGameWrapper)
    (hn : env.ncaa = Except.ok (some sb)) (hws : sb.games = some ws) :
    fetchLiveGames env "ncaam" maxGames power favs favExp
      = (ws.filterMap (ncaaKeep env.ncaaBox power favs favExp)).take maxGames := by
  unfold fetchLiveGames
  rw [if_neg (by decide)]
  rw [if_pos rfl]
  unfold fetchNcaaBasketballGames
  rw [hn]
  show (match sb.games with
       | none => ([] : List GameRecord)
       | some gs =>
         collectCapped (ncaaKeep env.ncaaBox power favs favExp) maxGames gs []) = _
  rw [hws]
  show collectCapped (ncaaKeep env.ncaaBox power favs favExp) maxGames ws [] = _
  rw [collectCapped_eq]
  simp

theorem length_filterMap_eq_countP {α β : Type} (f : α → Option β) :
    ∀ l : List α, (l.filterMap f).length = l.countP (fun x => (f x).isSome) := by
  intro l
  induction l with
  | nil => rfl
  | cons x xs ih =>
    rw [List.filterMap_cons, List.countP_cons]
    cases hf : f x with
    | none => simp [hf, ih]
    | some b => simp [hf, ih]

theorem liveParse_isSome (parse : Event → Option GameRecord) (e : Event) :
    (liveParse parse e).isSome
      = (decide (eventState e = some "in") && (parse e).isSome) := by
  unfold liveParse
  by_cases h : eventState e = some "in"
  · rw [if_neg (not_not_intro h)]
    simp [h]
  · rw [if_pos h]
    simp [h]

theorem ncaaKeep_isSome_nofilters (oracle : String → Option NcaaBoxscore)
    (favExp : Bool) (w : NcaaGameWrapper) :
    (ncaaKeep oracle false [] favExp w).isSome
      = (decide ((wrapperGame w).gameState.getD "" = "live")
         && (parseNcaaGame oracle (wrapperGame w) false favExp).isSome) := by
  unfold ncaaKeep
  by_cases h : ((wrapperGame w).gameState.getD "") = "live"
  · rw [if_neg (not_not_intro h)]
    rw [if_neg (by simp)]
    rw [if_pos rfl]
    simp [h]
  · rw [if_pos h]
    simp [h]

/-- C5: `fetch_live_games` never raises to its caller.  The embedding is a
total function, and every failure input — an unknown league key, a raised
upstream fetch (`Except.error`), an upstream that returned no data, or an
in-loop IndexError from the unguarded competitions indexing at
src/data_fetcher.py:107 — yields the empty list via the handler at line 128.
(The warning written for an unknown league key is a logging effect outside
this model.) -/
theorem claim_C5_fetch_never_raises :
    ∀ (env : FetchEnv) (leagueKey : String) (maxGames : Nat) (power : Bool)
      (favs : List String) (favExp : Bool),
      (leagueMapKeys.contains leagueKey = false →
        fetchLiveGames env leagueKey maxGames power favs favExp = [])
      ∧ ((leagueKey = "nba" ∨ leagueKey = "nfl" ∨ leagueKey = "ncaaf") →
          env.espn = Except.error () →
          fetchLiveGames env leagueKey maxGames power favs favExp = [])
      ∧ ((leagueKey = "nba" ∨ leagueKey = "nfl" ∨ leagueKey = "ncaaf") →
          env.espn = Except.ok none →
          fetchLiveGames env leagueKey maxGames power favs favExp = [])
      ∧ (∀ (sb : Scoreboard) (pre : List Event) (e : Event) (rest : List Event),
          (leagueKey = "nba" ∨ leagueKey = "nfl" ∨ leagueKey = "ncaaf") →
          env.espn = Except.ok (some sb) →
          sb.events = some (pre ++ e :: rest) →
          (∀ x ∈ pre, x.competitions ≠ some []) →
          e.competitions = some [] →
          (pre.filterMap (liveParse
            (fun x => parseGameEvent env.espnBox x leagueKey favs favExp))).length
              < maxGames →
          fetchLiveGames env leagueKey maxGames power favs favExp = [])
      ∧ (env.ncaa = Except.error () →
          fetchLiveGames env "ncaam" maxGames power favs favExp = [])
      ∧ (env.ncaa = Except.ok none →
          fetchLiveGames env "ncaam" maxGames power favs favExp = []) := by
  intro env leagueKey maxGames power favs favExp
  have hespn : ∀ hkey : leagueKey = "nba" ∨ leagueKey = "nfl" ∨ leagueKey = "ncaaf",
      leagueMapKeys.contains leagueKey = true ∧ leagueKey ≠ "ncaam" := by
    intro hkey
    constructor
    · rcases hkey with h | h | h <;> subst h <;> decide
    · rcases hkey with h | h | h <;> subst h <;> decide
  refine ⟨?_, ?_, ?_, ?_, ?_, ?_⟩
  · intro h
    unfold fetchLiveGames
    rw [h]
    rw [if_pos (by simp)]
  · intro hkey herr
    obtain ⟨hmem, hne⟩ := hespn hkey
    unfold fetchLiveGames
    rw [hmem, if_neg (by simp), if_neg hne, herr]
  · intro hkey hnone
    obtain ⟨hmem, hne⟩ := hespn hkey
    unfold fetchLiveGames
    rw [hmem, if_neg (by simp), if_neg hne, hnone]
  · intro sb pre e rest hkey hesp hevs hclean hbomb hcap
    exact fetchLiveGames_espn_abort env leagueKey maxGames power favs favExp sb pre e rest
      hkey hesp hevs hclean hbomb hcap
  · intro herr
    unfold fetchLiveGames
    rw [if_neg (by decide), if_pos rfl]
    unfold fetchNcaaBasketballGames
    rw [herr]
  · intro hnone
    unfold fetchLiveGames
    rw [if_neg (by decide), if_pos rfl]
    unfold fetchNcaaBasketballGames
    rw [hnone]

/-- Witness for C5: an unknown league key, raising upstreams, and an in-loop
IndexError (empty competitions list) each yield the empty list on concrete
inputs. -/
theorem claim_C5_fetch_never_raises_witness :
    fetchLiveGames wEnvErr "mlb" 50 false [] true = []
    ∧ fetchLiveGames wEnvErr "nba" 50 false [] true = []
    ∧ fetchLiveGames wEnvErr "ncaam" 50 false [] true = []
    ∧ fetchLiveGames wEnvAbort "nba" 50 false [] true = [] :=
  ⟨(claim_C5_fetch_never_raises wEnvErr "mlb" 50 false [] true).1 (by decide),
   (claim_C5_fetch_never_raises wEnvErr "nba" 50 false [] true).2.1 (Or.inl rfl) rfl,
   (claim_C5_fetch_never_raises wEnvErr "ncaam" 50 false [] true).2.2.2.2.1 rfl,
   (claim_C5_fetch_never_raises wEnvAbort "nba" 50 false [] true).2.2.2.1 wSbAbort
      [wGoodEvent] wAbortEvent [] (Or.inl rfl) rfl (by decide) (by decide) rfl (by decide)⟩

/-- C6 (amended): events whose status state is not "in" (ESPN) / "live"
(NCAA) are excluded; given the cap is not reached AND no event carries an
explicitly empty competitions list, the number of returned records equals
the number of upstream events that are live and parse successfully (filters
off on the NCAA path) — a live event that fails to parse is silently
skipped.  An event with an explicitly empty competitions list instead
aborts the whole league fetch to `[]` (the unguarded indexing at
src/data_fetcher.py:107 raises into the handler at line 128), discarding
even previously collected games. -/
theorem claim_C6_live_filter_amended :
    (∀ (env : FetchEnv) (leagueKey : String) (maxGames : Nat) (power : Bool)
        (favs : List String) (favExp : Bool) (sb : Scoreboard) (evs : List Event),
      (leagueKey = "nba" ∨ leagueKey = "nfl" ∨ leagueKey = "ncaaf") →
      env.espn = Except.ok (some sb) → sb.events = some evs →
      (∀ e ∈ evs, e.competitions ≠ some []) →
      evs.countP (fun e => decide (eventState e = some "in")
        && (parseGameEvent env.espnBox e leagueKey favs favExp).isSome) ≤ maxGames →
      (fetchLiveGames env leagueKey maxGames power favs favExp).length
        = evs.countP (fun e => decide (eventState e = some "in")
            && (parseGameEvent env.espnBox e leagueKey favs favExp).isSome))
    ∧ (∀ (env : FetchEnv) (leagueKey : String) (maxGames : Nat) (power : Bool)
        (favs : List String) (favExp : Bool) (sb : Scoreboard)
        (pre : List Event) (e : Event) (rest : List Event),
      (leagueKey = "nba" ∨ leagueKey = "nfl" ∨ leagueKey = "ncaaf") →
      env.espn = Except.ok (some sb) → sb.events = some (pre ++ e :: rest) →
      (∀ x ∈ pre, x.competitions ≠ some []) →
      e.competitions = some [] →
      (pre.filterMap (liveParse
        (fun x => parseGameEvent env.espnBox x leagueKey favs favExp))).length < maxGames →
      fetchLiveGames env leagueKey maxGames power favs favExp = [])
    ∧ (∀ (env : FetchEnv) (maxGames : Nat) (favExp : Bool) (sb : NcaaScoreboard)
        (ws : List NcaaGameWrapper),
      env.ncaa = Except.ok (some sb) → sb.games = some ws →
      ws.countP (fun w => decide ((wrapperGame w).gameState.getD "" = "live")
        && (parseNcaaGame env.ncaaBox (wrapperGame w) false favExp).isSome) ≤ maxGames →
      (fetchLiveGames env "ncaam" maxGames false [] favExp).length
        = ws.countP (fun w => decide ((wrapperGame w).gameState.getD "" = "live")
            && (parseNcaaGame env.ncaaBox (wrapperGame w) false favExp).isSome)) := by
  refine ⟨?_, ?_, ?_⟩
  · intro env leagueKey maxGames power favs favExp sb evs hkey hesp hevs hclean hcap
    rw [fetchLiveGames_espn env leagueKey maxGames power favs favExp sb evs
      hkey hesp hevs hclean]
    rw [List.length_take, length_filterMap_eq_countP]
    simp only [liveParse_isSome]
    omega
  · intro env leagueKey maxGames power favs favExp sb pre e rest hkey hesp hevs
      hclean hbomb hcap
    exact fetchLiveGames_espn_abort env leagueKey maxGames power favs favExp sb pre e rest
      hkey hesp hevs hclean hbomb hcap
  · intro env maxGames favExp sb ws hn hws hcap
    rw [fetchLiveGames_ncaam env maxGames false [] favExp sb ws hn hws]
    rw [List.length_take, length_filterMap_eq_countP]
    simp only [ncaaKeep_isSome_nofilters]
    omega

/-- Counterexample for C6 as stated: a scoreboard with one live but
unparseable event (no competitors) and one post event has one event with
status state "in" yet returns zero records; and a scoreboard with a good
live event followed by an event whose competitions list is explicitly empty
has two "in" events yet aborts to zero records, discarding the collected
game. -/
theorem claim_C6_unparsed_live_counterexample :
    (fetchLiveGames wEnvC6 "nba" 50 false [] true = []
      ∧ (wSbC6.events.getD []).countP (fun e => decide (eventState e = some "in")) = 1
      ∧ (0 : Nat) ≠ 1)
    ∧ (fetchLiveGames wEnvAbort "nba" 50 false [] true = []
      ∧ (wSbAbort.events.getD []).countP (fun e => decide (eventState e = some "in")) = 2
      ∧ (0 : Nat) ≠ 2) := by
  refine ⟨⟨by decide, by decide, by decide⟩, ⟨by decide, by decide, by decide⟩⟩

/-- Witness for C6 (amended): ten live, parseable events with non-empty
competitions under a cap of 50 give a returned length equal to the
live-and-parsed count; and the abort conjunct fires on a concrete feed. -/
theorem claim_C6_live_filter_amended_witness :
    ((fetchLiveGames wEnvTen "nba" 50 false [] true).length
      = (List.replicate 10 wGoodEvent).countP
          (fun e => decide (eventState e = some "in")
            && (parseGameEvent wEnvTen.espnBox e "nba" [] true).isSome))
    ∧ fetchLiveGames wEnvAbort "nba" 50 false [] true = [] :=
  ⟨claim_C6_live_filter_amended.1 wEnvTen "nba" 50 false [] true wSbTen
      (List.replicate 10 wGoodEvent) (Or.inl rfl) rfl rfl (by decide) (by decide),
   claim_C6_live_filter_amended.2.1 wEnvAbort "nba" 50 false [] true wSbAbort
      [wGoodEvent] wAbortEvent [] (Or.inl rfl) rfl (by decide) (by decide) rfl (by decide)⟩

/-- C8 (amended): when no event carries an explicitly empty competitions
list, the returned list is exactly the first `max_games` live, successfully
parsed upstream items in iteration order (the enumeration stops at the cap);
in particular, when at least `max_games` live events parse, the result has
exactly `max_games` records.  A live event that fails to parse is skipped
without counting towards the cap, and an event with an explicitly empty
competitions list reached before the cap aborts the whole league fetch to
`[]`. -/
theorem claim_C8_max_games_truncation_amended :
    (∀ (env : FetchEnv) (leagueKey : String) (maxGames : Nat) (power : Bool)
        (favs : List String) (favExp : Bool) (sb : Scoreboard) (evs : List Event),
      (leagueKey = "nba" ∨ leagueKey = "nfl" ∨ leagueKey = "ncaaf") →
      env.espn = Except.ok (some sb) → sb.events = some evs →
      (∀ e ∈ evs, e.competitions ≠ some []) →
      fetchLiveGames env leagueKey maxGames power favs favExp
        = (evs.filterMap (liveParse
            (fun e => parseGameEvent env.espnBox e leagueKey favs favExp))).take maxGames
      ∧ (maxGames ≤ (evs.filterMap (liveParse
            (fun e => parseGameEvent env.espnBox e leagueKey favs favExp))).length →
          (fetchLiveGames env leagueKey maxGames power favs favExp).length = maxGames))
    ∧ (∀ (env : FetchEnv) (leagueKey : String) (maxGames : Nat) (power : Bool)
        (favs : List String) (favExp : Bool) (sb : Scoreboard)
        (pre : List Event) (e : Event) (rest : List Event),
      (leagueKey = "nba" ∨ leagueKey = "nfl" ∨ leagueKey = "ncaaf") →
      env.espn = Except.ok (some sb) → sb.events = some (pre ++ e :: rest) →
      (∀ x ∈ pre, x.competitions ≠ some []) →
      e.competitions = some [] →
      (pre.filterMap (liveParse
        (fun x => parseGameEvent env.espnBox x leagueKey favs favExp))).length < maxGames →
      fetchLiveGames env leagueKey maxGames power favs favExp = [])
    ∧ (∀ (env : FetchEnv) (maxGames : Nat) (power : Bool) (favs : List String)
        (favExp : Bool) (sb : NcaaScoreboard) (ws : List NcaaGameWrapper),
      env.ncaa = Except.ok (some sb) → sb.games = some ws →
      fetchLiveGames env "ncaam" maxGames power favs favExp
        = (ws.filterMap (ncaaKeep env.ncaaBox power favs favExp)).take maxGames
      ∧ (maxGames ≤ (ws.filterMap (ncaaKeep env.ncaaBox power favs favExp)).length →
          (fetchLiveGames env "ncaam" maxGames power favs favExp).length = maxGames)) := by
  refine ⟨?_, ?_, ?_⟩
  · intro env leagueKey maxGames power favs favExp sb evs hkey hesp hevs hclean
    have heq := fetchLiveGames_espn env leagueKey maxGames power favs favExp sb evs
      hkey hesp hevs hclean
    refine ⟨heq, ?_⟩
    intro hcap
    rw [heq, List.length_take]
    omega
  · intro env leagueKey maxGames power favs favExp sb pre e rest hkey hesp hevs
      hclean hbomb hcap
    exact fetchLiveGames_espn_abort env leagueKey maxGames power favs favExp sb pre e rest
      hkey hesp hevs hclean hbomb hcap
  · intro env maxGames power favs favExp sb ws hn hws
    have heq := fetchLiveGames_ncaam env maxGames power favs favExp sb ws hn hws
    refine ⟨heq, ?_⟩
    intro hcap
    rw [heq, List.length_take]
    omega

/-- Counterexample for C8 as stated: four live events (more than
`max_games = 3`), none of which parses, yield zero records instead of three. -/
theorem claim_C8_unparsed_live_counterexample :
    (wSbC8.events.getD []).countP (fun e => decide (eventState e = some "in")) = 4
    ∧ fetchLiveGames wEnvC8 "nba" 3 false [] true = []
    ∧ (0 : Nat) ≠ 3 := by
  refine ⟨by decide, by decide, by decide⟩

/-- Witness for C8 (amended): ten live parseable events and `max_games = 3`
yield exactly three records, and the abort conjunct fires on a concrete
feed with an empty-competitions event. -/
theorem claim_C8_max_games_truncation_amended_witness :
    (3 ≤ ((List.replicate 10 wGoodEvent).filterMap
        (liveParse (fun e => parseGameEvent wEnvTen.espnBox e "nba" [] true))).length
      ∧ (fetchLiveGames wEnvTen "nba" 3 false [] true).length = 3)
    ∧ fetchLiveGames wEnvAbort "nba" 50 false [] true = [] :=
  ⟨⟨by decide,
    ((claim_C8_max_games_truncation_amended.1 wEnvTen "nba" 3 false [] true wSbTen
      (List.replicate 10 wGoodEvent) (Or.inl rfl) rfl rfl (by decide)).2 (by decide))⟩,
   claim_C8_max_games_truncation_amended.2.1 wEnvAbort "nba" 50 false [] true wSbAbort
      [wGoodEvent] wAbortEvent [] (Or.inl rfl) rfl (by decide) (by decide) rfl (by decide)⟩

/-! ### C7: score coercion -/

/-- C7 (amended): a constructed GameRecord's scores are exactly the Python
`int(...)` of the upstream score with a default of 0: a missing score yields
0 and the record is still produced, a numeric score passes through with its
sign preserved (negative values are not clamped), and a score on which
`int(...)` raises aborts parsing so the record is dropped rather than
defaulted. -/
theorem claim_C7_score_coercion_amended :
    (∀ (oracle : String → Option EspnBoxscore) (e : Event) (lk : String)
        (favs : List String) (fe : Bool) (r : GameRecord),
      parseGameEvent oracle e lk favs fe = some r →
      ∃ c home away, eventCompetition e = some c ∧
        c.competitors.find? (fun x => x.homeAway = some "home") = some home ∧
        c.competitors.find? (fun x => x.homeAway = some "away") = some away ∧
        pyToInt (home.score.getD (.vInt 0)) = some r.home_score ∧
        pyToInt (away.score.getD (.vInt 0)) = some r.away_score ∧
        (home.score = none → r.home_score = 0) ∧
        (away.score = none → r.away_score = 0))
    ∧ (∀ (oracle : String → Option EspnBoxscore) (e : Event) (lk : String)
        (favs : List String) (fe : Bool) (c : Competition) (home : Competitor),
      eventCompetition e = some c →
      ¬ c.competitors.length < 2 →
      c.competitors.find? (fun x => x.homeAway = some "home") = some home →
      pyToInt (home.score.getD (.vInt 0)) = none →
      parseGameEvent oracle e lk favs fe = none)
    ∧ (∀ (oracle2 : String → Option NcaaBoxscore) (game : NcaaGame)
        (isFav exp2 : Bool) (r : GameRecord),
      parseNcaaGame oracle2 game isFav exp2 = some r →
      pyToInt ((game.home.getD ⟨none, none, none, none, []⟩).score.getD (.vInt 0))
          = some r.home_score ∧
      pyToInt ((game.away.getD ⟨none, none, none, none, []⟩).score.getD (.vInt 0))
          = some r.away_score ∧
      ((game.home.getD ⟨none, none, none, none, []⟩).score = none → r.home_score = 0)) := by
  refine ⟨?_, ?_, ?_⟩
  · intro oracle e lk favs fe r h
    unfold parseGameEvent at h
    split at h
    · exact absurd h (by simp)
    · rename_i c hcomp
      split at h
      · exact absurd h (by simp)
      · rename_i hlen
        split at h
        · rename_i home away hfh hfa
          unfold buildGameRecord at h
          split at h
          · rename_i homeScore awayScore hsh hsa
            injection h with h2
            subst h2
            refine ⟨c, home, away, hcomp, hfh, hfa, hsh, hsa, ?_, ?_⟩
            · intro hn
              rw [hn] at hsh
              simp only [Option.getD_none] at hsh
              have : (0 : Int) = homeScore := by
                have h3 : pyToInt (.vInt 0) = some (0 : Int) := rfl
                rw [h3] at hsh
                injection hsh
              show homeScore = 0
              omega
            · intro hn
              rw [hn] at hsa
              simp only [Option.getD_none] at hsa
              have : (0 : Int) = awayScore := by
                have h3 : pyToInt (.vInt 0) = some (0 : Int) := rfl
                rw [h3] at hsa
                injection hsa
              show awayScore = 0
              omega
          · exact absurd h (by simp)
        · exact absurd h (by simp)
  · intro oracle e lk favs fe c home hcomp hlen hfind hbad
    unfold parseGameEvent
    rw [hcomp]
    show (if c.competitors.length < 2 then none else _) = none
    rw [if_neg hlen]
    rw [hfind]
    cases hfa : c.competitors.find? (fun x => x.homeAway = some "away") with
    | none => rfl
    | some aw =>
      show buildGameRecord oracle e lk favs fe home aw = none
      unfold buildGameRecord
      rw [hbad]
  · intro oracle2 game isFav exp2 r h
    unfold parseNcaaGame at h
    split at h
    · rename_i homeScore awayScore hsh hsa
      injection h with h2
      subst h2
      refine ⟨hsh, hsa, ?_⟩
      intro hn
      rw [hn] at hsh
      simp only [Option.getD_none] at hsh
      have : (0 : Int) = homeScore := by
        have h3 : pyToInt (.vInt 0) = some (0 : Int) := rfl
        rw [h3] at hsh
        injection hsh
      show homeScore = 0
      omega
    · exact absurd h (by simp)

/-- Counterexample for C7 as stated: a non-numeric home score drops the
whole event (instead of defaulting to 0 with the record produced), and a
negative numeric score is stored as a negative integer (instead of being
coerced non-negative). -/
theorem claim_C7_score_counterexample :
    parseGameEvent (fun _ => none) wBadScoreEvent "nba" [] true = none
    ∧ (parseGameEvent (fun _ => none) wNegScoreEvent "nba" [] true).map
        (fun r => r.home_score) = some (-3)
    ∧ ¬ (0 : Int) ≤ -3 := by
  refine ⟨by decide, by decide, by decide⟩

/-- Witness for C7 (amended): on a well-formed event the scores pass through
`int(...)`, and a missing-score NCAA game defaults to 0 with the record
produced. -/
theorem claim_C7_score_coercion_amended_witness :
    (∃ c home away, eventCompetition wGoodEvent = some c ∧
      c.competitors.find? (fun x => x.homeAway = some "home") = some home ∧
      c.competitors.find? (fun x => x.homeAway = some "away") = some away ∧
      pyToInt (home.score.getD (.vInt 0))
        = some ((parseGameEvent (fun _ => none) wGoodEvent "nba" [] true).getD default).home_score ∧
      pyToInt (away.score.getD (.vInt 0))
        = some ((parseGameEvent (fun _ => none) wGoodEvent "nba" [] true).getD default).away_score ∧
      (home.score = none →
        ((parseGameEvent (fun _ => none) wGoodEvent "nba" [] true).getD default).home_score = 0) ∧
      (away.score = none →
        ((parseGameEvent (fun _ => none) wGoodEvent "nba" [] true).getD default).away_score = 0))
    ∧ parseGameEvent (fun _ => none) wBadScoreEvent "nba" [] true = none := by
  constructor
  · have h := claim_C7_score_coercion_amended.1 (fun _ => none) wGoodEvent "nba" [] true
      ((parseGameEvent (fun _ => none) wGoodEvent "nba" [] true).getD default) (by decide)
    exact h
  · exact claim_C7_score_coercion_amended.2.1 (fun _ => none) wBadScoreEvent "nba" [] true
      ⟨[⟨some "home", some ⟨some "AAA"⟩, some (.vStr "N/A"), []⟩, wAwayComp]⟩
      ⟨some "home", some ⟨some "AAA"⟩, some (.vStr "N/A"), []⟩
      (by decide) (by decide) (by decide) (by decide)

/-! ### C2: football leader extraction -/

theorem espnLeadersPair_fb (oracle : String → Option EspnBoxscore) (gid lk : String)
    (homeTeam awayTeam : Competitor) (ha aa : String) (ex : Bool) (box : EspnBoxscore)
    (hlk : lk = "nfl" ∨ lk = "ncaaf") (hgid : gid ≠ "") (hbox : oracle gid = some box) :
    espnLeadersPair oracle (some gid) lk homeTeam awayTeam ha aa ex
      = (some none, some none) := by
  unfold espnLeadersPair
  show (if gid ≠ "" then _ else _) = _
  rw [if_pos hgid, hbox]
  show (if lk = "nba" ∨ lk = "ncaam" then _ else _) = _
  have h1 : ¬ (lk = "nba" ∨ lk = "ncaam") := by
    rcases hlk with h | h <;> subst h <;> decide
  rw [if_neg h1, if_pos hlk]
  rfl

/-- C2 (amended/corrected): the boxscore football extractor is a stub that
returns `None` for every input, so for every football game whose boxscore
fetch succeeds the leader keys are set to `None` (no passer/receiver/rusher
is picked from the boxscore).  The described behaviour — taking athlete
index 0 of the passing/receiving/rushing section as the upstream leader and
formatting `"{yards} YDS, {touchdowns} TD"` — belongs to the scoreboard
fallback `extract_football_leaders`, which runs only when the boxscore fetch
fails. -/
theorem claim_C2_football_leaders_amended :
    (∀ (box : EspnBoxscore) (ha : String), extractBoxscoreFootballLeaders box ha = none)
    ∧ (∀ (oracle : String → Option EspnBoxscore) (e : Event) (lk : String)
        (favs : List String) (fe : Bool) (r : GameRecord) (gid : String)
        (box : EspnBoxscore),
      (lk = "nfl" ∨ lk = "ncaaf") →
      parseGameEvent oracle e lk favs fe = some r →
      e.id = some gid → gid ≠ "" → oracle gid = some box →
      r.home_leaders = some none ∧ r.away_leaders = some none)
    ∧ (∀ (sections : List FallSection) (secName : String) (y t : Nat)
        (sec : FallSection) (a : BAthlete) (rest : List BAthlete),
      sections.find? (fun s => s.name = some secName) = some sec →
      sec.athletes = some (a :: rest) →
      4 ≤ a.stats.length →
      fbCategory sections secName y t
        = some ⟨abbreviateName ((a.athlete.getD ⟨none, none⟩).displayName.getD "Unknown"),
            pyToStr (a.stats.getD y .vNone) ++ " YDS, "
              ++ pyToStr (a.stats.getD t .vNone) ++ " TD"⟩)
    ∧ (∀ (c : Competitor) (L : FBLeaders), extractFootballLeaders c = some L →
      L.qb = fbCategory c.statistics "passing" 2 3
      ∧ L.wr = fbCategory c.statistics "receiving" 1 3
      ∧ L.rb = fbCategory c.statistics "rushing" 1 3) := by
  refine ⟨fun _ _ => rfl, ?_, ?_, ?_⟩
  · intro oracle e lk favs fe r gid box hlk h hid hgid hbox
    unfold parseGameEvent at h
    split at h
    · exact absurd h (by simp)
    · rename_i c hcomp
      split at h
      · exact absurd h (by simp)
      · rename_i hlen
        split at h
        · rename_i home away hfh hfa
          unfold buildGameRecord at h
          split at h
          · rename_i homeScore awayScore hsh hsa
            injection h with h2
            subst h2
            constructor
            · show (espnLeadersPair oracle e.id lk home away _ _ _).1 = some none
              rw [hid, espnLeadersPair_fb oracle gid lk _ _ _ _ _ _ hlk hgid hbox]
            · show (espnLeadersPair oracle e.id lk home away _ _ _).2 = some none
              rw [hid, espnLeadersPair_fb oracle gid lk _ _ _ _ _ _ hlk hgid hbox]
          · exact absurd h (by simp)
        · exact absurd h (by simp)
  · intro sections secName y t sec a rest hfind hath hlen
    have hb : (sections.find? (fun s => s.name = some secName)).bind
        (fun sec => sec.athletes) = some (a :: rest) := by
      rw [hfind]
      exact hath
    unfold fbCategory
    rw [hb]
    show fbFromAthlete a y t = _
    unfold fbFromAthlete
    rw [if_pos hlen]
  · intro c L h
    unfold extractFootballLeaders at h
    by_cases hempty : c.statistics = []
    · rw [if_pos hempty] at h
      exact absurd h (by simp)
    · rw [if_neg hempty] at h
      split at h
      · exact absurd h (by simp)
      · injection h with h2
        subst h2
        exact ⟨rfl, rfl, rfl⟩

/-- Counterexample for C2 as stated: on a live NFL event whose boxscore fetch
succeeds, the home leader key is set to `None` — no top passer is picked —
even though the same competitor's scoreboard data would have produced a QB
entry via the fallback extractor. -/
theorem claim_C2_boxscore_stub_counterexample :
    (parseGameEvent (fun _ => some wFbBox) wFbEvent "nfl" [] true).map
        (fun r => r.home_leaders) = some (some none)
    ∧ extractBoxscoreFootballLeaders wFbBox "home" = none
    ∧ (extractFootballLeaders wFbHome).map (fun L => L.qb)
        = some (some ⟨"Mahomes", "245 YDS, 3 TD"⟩) := by
  refine ⟨by decide, rfl, by decide⟩

/-- Witness for C2 (amended): the hypotheses hold on a concrete football
event with a successful boxscore fetch, and on a concrete passing section. -/
theorem claim_C2_football_leaders_amended_witness :
    (((parseGameEvent (fun _ => some wFbBox) wFbEvent "nfl" [] true).getD
        default).home_leaders = some none
      ∧ ((parseGameEvent (fun _ => some wFbBox) wFbEvent "nfl" [] true).getD
        default).away_leaders = some none)
    ∧ fbCategory wFbHome.statistics "passing" 2 3
        = some ⟨abbreviateName ((wFbAthlete.athlete.getD ⟨none, none⟩).displayName.getD
              "Unknown"),
            pyToStr (wFbAthlete.stats.getD 2 .vNone) ++ " YDS, "
              ++ pyToStr (wFbAthlete.stats.getD 3 .vNone) ++ " TD"⟩ :=
  ⟨claim_C2_football_leaders_amended.2.1 (fun _ => some wFbBox) wFbEvent "nfl" [] true
      ((parseGameEvent (fun _ => some wFbBox) wFbEvent "nfl" [] true).getD default)
      "401" wFbBox (Or.inl rfl) (by decide) rfl (by decide) rfl,
   claim_C2_football_leaders_amended.2.2.1 wFbHome.statistics "passing" 2 3
      ⟨some "passing", some [wFbAthlete]⟩ wFbAthlete [] (by decide) rfl (by decide)⟩

/-! ### C3: swap-at-wrap, and C4: league rotation -/

/-- C3: on every display tick the displayed batch is unchanged unless the
scroll position wraps (jumps backward by more than one viewport width) AND a
pending background-fetched batch is ready, in which case the displayed batch
becomes the pending batch at exactly that tick, the pending slot is cleared
and the ready flag dropped; a wrap with no pending batch only resets the
distance-tracking fields and leaves both batches untouched. -/
theorem claim_C3_swap_at_wrap :
    ∀ (α : Type) (displayWidth newPos : ℚ) (s : DispState α),
      (¬ s.scrollPos - newPos > displayWidth →
        (displayTick displayWidth newPos s).gamesData = s.gamesData ∧
        (displayTick displayWidth newPos s).pendingGamesData = s.pendingGamesData ∧
        (displayTick displayWidth newPos s).pendingDataReady = s.pendingDataReady)
      ∧ (s.scrollPos - newPos > displayWidth → s.pendingDataReady = true →
        (displayTick displayWidth newPos s).gamesData = s.pendingGamesData ∧
        (displayTick displayWidth newPos s).pendingGamesData = none ∧
        (displayTick displayWidth newPos s).pendingDataReady = false)
      ∧ (s.scrollPos - newPos > displayWidth → s.pendingDataReady = false →
        (displayTick displayWidth newPos s).gamesData = s.gamesData ∧
        (displayTick displayWidth newPos s).pendingGamesData = s.pendingGamesData ∧
        (displayTick displayWidth newPos s).pendingDataReady = s.pendingDataReady ∧
        (displayTick displayWidth newPos s).scrollComplete = false ∧
        (displayTick displayWidth newPos s).totalDistanceScrolled = 0) := by
  intro α w newPos s
  refine ⟨?_, ?_, ?_⟩
  · intro hw
    unfold displayTick
    rw [if_neg hw]
    exact ⟨rfl, rfl, rfl⟩
  · intro hw hr
    unfold displayTick
    rw [if_pos hw, if_pos hr]
    exact ⟨rfl, rfl, rfl⟩
  · intro hw hr
    unfold displayTick
    rw [if_pos hw, if_neg (by simp [hr])]
    exact ⟨rfl, rfl, rfl, rfl, rfl⟩

/-- Witness for C3: from a concrete mid-scroll state with a ready pending
batch, a forward tick leaves the displayed batch unchanged, and a wrap tick
replaces it by the pending batch and clears the slot. -/
theorem claim_C3_swap_at_wrap_witness :
    ((displayTick (α := Nat) 64 101 wDispMid).gamesData = some [1, 2]
      ∧ (displayTick (α := Nat) 64 101 wDispMid).pendingGamesData = some [3, 4, 5])
    ∧ ((displayTick (α := Nat) 64 2 wDispMid).gamesData = some [3, 4, 5]
      ∧ (displayTick (α := Nat) 64 2 wDispMid).pendingGamesData = none
      ∧ (displayTick (α := Nat) 64 2 wDispMid).pendingDataReady = false) := by
  constructor
  · have h := (claim_C3_swap_at_wrap Nat 64 101 wDispMid).1 (by norm_num [wDispMid])
    exact ⟨h.1, h.2.1⟩
  · have h := (claim_C3_swap_at_wrap Nat 64 2 wDispMid).2.1 (by norm_num [wDispMid]) rfl
    exact ⟨h.1, h.2.1, h.2.2⟩

theorem probeFrom_shift (rot : List String) (i j : Nat) :
    probeFrom rot ((i + 1) % rot.length) j = probeFrom rot i (j + 1) := by
  unfold probeFrom
  rw [Nat.mod_add_mod]
  have h : i + 1 + j = i + (j + 1) := by omega
  rw [h]

theorem rotateLoop_found {γ : Type} (oracle : String → List γ) (rot : List String) :
    ∀ (k fuel i : Nat), 1 ≤ k → k ≤ fuel →
      (∀ j, 1 ≤ j → j < k → oracle (probeFrom rot i j) = []) →
      oracle (probeFrom rot i k) ≠ [] →
      rotateLoop oracle rot i fuel
        = (oracle (probeFrom rot i k), (i + k) % rot.length,
           (List.range k).map (fun j => probeFrom rot i (j + 1))) := by
  intro k
  induction k with
  | zero =>
    intro fuel i h1
    exact absurd h1 (by omega)
  | succ k ih =>
    intro fuel i hk1 hkf hempty hfound
    obtain ⟨f, hf⟩ : ∃ f, fuel = f + 1 := ⟨fuel - 1, by omega⟩
    subst hf
    unfold rotateLoop
    rcases Nat.eq_zero_or_pos k with hk0 | hkpos
    · subst hk0
      have hne : (oracle (rot.getD ((i + 1) % rot.length) "")).isEmpty = false := by
        rw [List.isEmpty_eq_false]
        exact hfound
      rw [if_pos hne]
      rfl
    · have he1 : oracle (rot.getD ((i + 1) % rot.length) "") = [] :=
        hempty 1 (by omega) (by omega)
      have hem : (oracle (rot.getD ((i + 1) % rot.length) "")).isEmpty = true := by
        rw [List.isEmpty_iff]
        exact he1
      rw [if_neg (by rw [hem]; decide)]
      have hih := ih f ((i + 1) % rot.length) hkpos (by omega) ?_ ?_
      · rw [hih]
        show (oracle (probeFrom rot ((i + 1) % rot.length) k),
              ((i + 1) % rot.length + k) % rot.length,
              rot.getD ((i + 1) % rot.length) ""
                :: (List.range k).map (fun j => probeFrom rot ((i + 1) % rot.length) (j + 1)))
            = _
        simp only [probeFrom_shift]
        rw [Nat.mod_add_mod]
        have h2 : i + 1 + k = i + (k + 1) := by omega
        rw [h2]
        rw [List.range_succ_eq_map, List.map_cons, List.map_map]
        rfl
      · intro j hj1 hjk
        rw [probeFrom_shift]
        exact hempty (j + 1) (by omega) (by omega)
      · rw [probeFrom_shift]
        exact hfound

theorem rotateLoop_all_empty {γ : Type} (oracle : String → List γ) (rot : List String) :
    ∀ (fuel i : Nat), 1 ≤ fuel →
      (∀ j, 1 ≤ j → j ≤ fuel → oracle (probeFrom rot i j) = []) →
      rotateLoop oracle rot i fuel
        = ([], (i + fuel) % rot.length,
           (List.range fuel).map (fun j => probeFrom rot i (j + 1))) := by
  intro fuel
  induction fuel with
  | zero =>
    intro i h1
    exact absurd h1 (by omega)
  | succ f ih =>
    intro i _ hempty
    unfold rotateLoop
    have he1 : oracle (rot.getD ((i + 1) % rot.length) "") = [] :=
      hempty 1 (by omega) (by omega)
    have hem : (oracle (rot.getD ((i + 1) % rot.length) "")).isEmpty = true := by
      rw [List.isEmpty_iff]
      exact he1
    rw [if_neg (by rw [hem]; decide)]
    rcases Nat.eq_zero_or_pos f with hf0 | hfpos
    · subst hf0
      show (([] : List γ), (i + 1) % rot.length, [rot.getD ((i + 1) % rot.length) ""])
        = ([], (i + 1) % rot.length, [probeFrom rot i 1])
      rfl
    · have hih := ih ((i + 1) % rot.length) hfpos ?_
      · rw [hih]
        show (([] : List γ), ((i + 1) % rot.length + f) % rot.length,
              rot.getD ((i + 1) % rot.length) ""
                :: (List.range f).map (fun j => probeFrom rot ((i + 1) % rot.length) (j + 1)))
            = _
        simp only [probeFrom_shift]
        rw [Nat.mod_add_mod]
        have h2 : i + 1 + f = i + (f + 1) := by omega
        rw [h2]
        rw [List.range_succ_eq_map, List.map_cons, List.map_map]
        rfl
      · intro j hj1 hjf
        rw [probeFrom_shift]
        exact hempty (j + 1) (by omega) (by omega)

/-- C4 (amended): `_fetch_games` tries the league at the current rotation
index first and, on empty results, advances the index modulo the rotation
length and retries, returning the first non-empty league result with the
index left at that league, or an empty list after the loop.  The loop runs up
to `len(rotation)` further attempts after the initial one, so leagues other
than the starting one are tried at most once, but when every league is empty
the starting league is fetched twice (first and last probe) and the index
ends back at the start.  With league A empty and league B live, starting at
A, it returns B's games with the index advanced to B. -/
theorem claim_C4_league_rotation_amended :
    ∀ (γ : Type) (oracle : String → List γ) (rot : List String) (idx : Nat),
      idx < rot.length →
      ((oracle (probeFrom rot idx 0) ≠ [] →
        fetchGames oracle rot idx
          = (oracle (probeFrom rot idx 0), idx, [probeFrom rot idx 0]))
      ∧ (∀ k, 1 ≤ k → k ≤ rot.length →
          (∀ j, j < k → oracle (probeFrom rot idx j) = []) →
          oracle (probeFrom rot idx k) ≠ [] →
          fetchGames oracle rot idx
            = (oracle (probeFrom rot idx k), (idx + k) % rot.length,
               (List.range (k + 1)).map (fun j => probeFrom rot idx j)))
      ∧ ((∀ j, j ≤ rot.length → oracle (probeFrom rot idx j) = []) →
          fetchGames oracle rot idx
            = ([], idx,
               (List.range (rot.length + 1)).map (fun j => probeFrom rot idx j)))) := by
  intro γ oracle rot idx hidx
  have hp0 : probeFrom rot idx 0 = rot.getD idx "" := by
    unfold probeFrom
    rw [Nat.add_zero, Nat.mod_eq_of_lt hidx]
  refine ⟨?_, ?_, ?_⟩
  · intro hne
    unfold fetchGames
    rw [hp0] at hne
    have hne2 : (oracle (rot.getD idx "")).isEmpty = false := by
      rw [List.isEmpty_eq_false]
      exact hne
    rw [if_pos hne2, hp0]
  · intro k hk1 hkn hempty hfound
    unfold fetchGames
    have he0 : oracle (rot.getD idx "") = [] := by
      rw [← hp0]
      exact hempty 0 (by omega)
    have hem : (oracle (rot.getD idx "")).isEmpty = true := by
      rw [List.isEmpty_iff]
      exact he0
    rw [if_neg (by rw [hem]; decide)]
    rw [rotateLoop_found oracle rot k rot.length idx hk1 hkn
      (fun j hj1 hjk => hempty j hjk) hfound]
    rw [List.range_succ_eq_map, List.map_cons, List.map_map, ← hp0]
    rfl
  · intro hempty
    unfold fetchGames
    have he0 : oracle (rot.getD idx "") = [] := by
      rw [← hp0]
      exact hempty 0 (by omega)
    have hem : (oracle (rot.getD idx "")).isEmpty = true := by
      rw [List.isEmpty_iff]
      exact he0
    rw [if_neg (by rw [hem]; decide)]
    have hn1 : 1 ≤ rot.length := by omega
    rw [rotateLoop_all_empty oracle rot rot.length idx hn1
      (fun j hj1 hjn => hempty j hjn)]
    rw [Nat.add_mod_right, Nat.mod_eq_of_lt hidx]
    rw [List.range_succ_eq_map, List.map_cons, List.map_map, ← hp0]
    rfl

/-- Counterexample for C4's "each configured league at most once": with two
leagues both empty, the fetch trace is A, B, A — the starting league is
fetched twice — and the index ends back at the start. -/
theorem claim_C4_double_fetch_counterexample :
    fetchGames oracleEmpty ["A", "B"] 0 = ([], 0, ["A", "B", "A"])
    ∧ (["A", "B", "A"].count "A") = 2
    ∧ ¬ (["A", "B", "A"].count "A") ≤ 1 := by
  refine ⟨by decide, by decide, by decide⟩

/-- Witness for C4 (amended): with league A empty and league B live, a fetch
starting at A returns B's games with the rotation index advanced to B. -/
theorem claim_C4_league_rotation_amended_witness :
    fetchGames oracleB ["A", "B"] 0
      = (oracleB (probeFrom ["A", "B"] 0 1), (0 + 1) % (["A", "B"] : List String).length,
         (List.range 2).map (fun j => probeFrom ["A", "B"] 0 j))
    ∧ fetchGames oracleB ["A", "B"] 0 = ([7, 8], 1, ["A", "B"]) := by
  have h := (claim_C4_league_rotation_amended Nat oracleB ["A", "B"] 0 (by decide)).2.1 1
    (by omega) (by decide)
    (fun j hj => by
      have hj0 : j = 0 := by omega
      subst hj0
      decide)
    (by decide)
  exact ⟨h, by decide⟩

end LedStats

